import Mathlib

/-!
Verification development for the tdd-mcp-server repository.

The TypeScript sources are shallowly embedded as executable Lean
definitions.  JavaScript strings are modelled by Lean `String`
(character lists), JavaScript numbers that the verified code computes
with are modelled by `Nat`, `Int` or `ℚ` as appropriate, `Date` values
are modelled by their millisecond timestamps (`Int`), and fallible code
returns `Except String`.  File-system state is modelled by an explicit
`Store` value that is threaded through the storage operations.
-/

namespace TddMcp

/-! ## JavaScript string primitives

Models of the host-language string operations used by the sources:
`String.prototype.includes`, `toLowerCase`, `trim`, `split`,
`parseInt`, and `Math.round`. -/

/-- Substring test on character lists: `hay` contains `nee` as a
contiguous run.  Models `String.prototype.includes`. -/
def listContains : List Char → List Char → Bool
  | [], nee => nee.isEmpty
  | c :: t, nee => nee.isPrefixOf (c :: t) || listContains t nee

/-- JavaScript `s.includes(sub)`. -/
def jsIncludes (s sub : String) : Bool :=
  listContains s.data sub.data

/-- JavaScript `s.toLowerCase()` (the sources only lowercase ASCII). -/
def jsToLower (s : String) : String :=
  String.mk (s.data.map Char.toLower)

/-- JavaScript `s.startsWith(pre)`. -/
def jsStartsWith (s pre : String) : Bool :=
  pre.data.isPrefixOf s.data

/-- JavaScript `s.substring(n)` for character offsets. -/
def jsDropChars (s : String) (n : Nat) : String :=
  String.mk (s.data.drop n)

/-- Whitespace characters recognised by the model of `\s` / `trim`. -/
def isSpaceChar (c : Char) : Bool :=
  c = ' ' || c = '\t' || c = '\n' || c = '\r'

/-- JavaScript `s.trim()`. -/
def jsTrim (s : String) : String :=
  String.mk (((s.data.dropWhile isSpaceChar).reverse.dropWhile isSpaceChar).reverse)

/-- Worker for `splitRuns`.  The recursion is driven by a fuel counter
equal to the input length so that the definition is structurally
recursive and evaluates inside the kernel; each step consumes at least
one character, so the fuel never runs out. -/
def splitRunsFuel (p : Char → Bool) : Nat → List Char → List Char → List String
  | 0, l, acc => [String.mk (acc.reverse ++ l)]
  | _ + 1, [], acc => [String.mk acc.reverse]
  | fuel + 1, c :: rest, acc =>
    if p c then
      String.mk acc.reverse :: splitRunsFuel p fuel (rest.dropWhile p) []
    else
      splitRunsFuel p fuel rest (c :: acc)

/-- JavaScript `s.split(re)` for a one-character-class-plus regular
expression such as `/[.!?]+/` or `/\s+/`: split at maximal runs of
characters satisfying `p`; runs at either end contribute empty
pieces. -/
def splitRuns (p : Char → Bool) (s : String) : List String :=
  splitRunsFuel p s.data.length s.data []

/-- Worker for `jsSplitOnStr`, fuel-driven like `splitRunsFuel`. -/
def splitOnStrFuel (sep : List Char) : Nat → List Char → List Char → List String
  | 0, l, acc => [String.mk (acc.reverse ++ l)]
  | _ + 1, [], acc => [String.mk acc.reverse]
  | fuel + 1, c :: rest, acc =>
    if sep.isPrefixOf (c :: rest) then
      String.mk acc.reverse :: splitOnStrFuel sep fuel ((c :: rest).drop sep.length) []
    else
      splitOnStrFuel sep fuel rest (c :: acc)

/-- JavaScript `s.split(sep)` for a non-empty literal separator. -/
def jsSplitOnStr (sep s : String) : List String :=
  splitOnStrFuel sep.data s.data.length s.data []

/-- Concatenate with a separator (JavaScript `Array.prototype.join`). -/
def strIntercalate (sep : String) : List String → String
  | [] => ""
  | s :: rest => rest.foldl (fun acc t => acc ++ sep ++ t) s

/-- JavaScript `s.replace(/\s+/g, rep)`-style replacement of maximal
runs matched by `p`. -/
def jsReplaceRuns (p : Char → Bool) (rep : String) (s : String) : String :=
  strIntercalate rep (splitRuns p s)

/-- Decimal digit test. -/
def isDigitChar (c : Char) : Bool :=
  '0' ≤ c && c ≤ '9'

/-- JavaScript `parseInt(s)`: optional sign followed by leading digits;
`none` models `NaN`. -/
def jsParseInt (s : String) : Option Int :=
  let l := s.data.dropWhile isSpaceChar
  let signAndRest : Int × List Char :=
    match l with
    | '-' :: t => (-1, t)
    | '+' :: t => (1, t)
    | _ => (1, l)
  let ds := signAndRest.2.takeWhile isDigitChar
  if ds.isEmpty then none
  else some (signAndRest.1 * (ds.foldl (fun a c => a * 10 + (c.toNat - '0'.toNat)) 0 : Nat))

/-- JavaScript `Math.round` on an exact rational: half-up rounding. -/
def jsRound (q : ℚ) : ℤ :=
  ⌊q + 1 / 2⌋

/-- Addition on `Option Int` where `none` models `NaN` and poisons the
sum, as JavaScript `x += parseInt(...)` does. -/
def nanAdd : Option Int → Option Int → Option Int
  | some a, some b => some (a + b)
  | _, _ => none

/-! ## Coverage analyzer (src/services/coverage-analyzer.ts)

`parseLcovCoverage` and `calculatePercentage`, translated from
`CoverageAnalyzerService`. -/

/-- The `overall` record produced by the coverage parsers.  Fields are
`Option ℚ` because a malformed counter propagates `NaN`. -/
structure OverallCoverage where
  lines : Option ℚ
  functions : Option ℚ
  branches : Option ℚ
  statements : Option ℚ
deriving DecidableEq, Repr

/-- Running totals accumulated while scanning an LCOV file. -/
structure LcovTotals where
  totalLines : Option Int
  coveredLines : Option Int
  totalFunctions : Option Int
  coveredFunctions : Option Int
  totalBranches : Option Int
  coveredBranches : Option Int
deriving DecidableEq, Repr

/-- Initial (all-zero) LCOV totals. -/
def initLcovTotals : LcovTotals :=
  ⟨some 0, some 0, some 0, some 0, some 0, some 0⟩

/-- One line of the LCOV scanning loop in `parseLcovCoverage`.  The
`SF:` branch only records the file name, which the overall totals never
use. -/
def lcovScanLine (acc : LcovTotals) (line : String) : LcovTotals :=
  if jsStartsWith line "SF:" then acc
  else if jsStartsWith line "LF:" then
    { acc with totalLines := nanAdd acc.totalLines (jsParseInt (jsDropChars line 3)) }
  else if jsStartsWith line "LH:" then
    { acc with coveredLines := nanAdd acc.coveredLines (jsParseInt (jsDropChars line 3)) }
  else if jsStartsWith line "FNF:" then
    { acc with totalFunctions := nanAdd acc.totalFunctions (jsParseInt (jsDropChars line 4)) }
  else if jsStartsWith line "FNH:" then
    { acc with coveredFunctions := nanAdd acc.coveredFunctions (jsParseInt (jsDropChars line 4)) }
  else if jsStartsWith line "BRF:" then
    { acc with totalBranches := nanAdd acc.totalBranches (jsParseInt (jsDropChars line 4)) }
  else if jsStartsWith line "BRH:" then
    { acc with coveredBranches := nanAdd acc.coveredBranches (jsParseInt (jsDropChars line 4)) }
  else acc

/-- `total > 0 ? Math.round((covered / total) * 100) : 0` with `NaN`
propagation: a `NaN` total compares false and yields `0`; a `NaN`
covered count makes the rounded value `NaN`. -/
def lcovPercentage (covered total : Option Int) : Option ℚ :=
  match total with
  | some t =>
    if 0 < t then
      match covered with
      | some c => some ((jsRound ((c : ℚ) / (t : ℚ) * 100) : ℤ) : ℚ)
      | none => none
    else some 0
  | none => some 0

/-- `CoverageAnalyzerService.parseLcovCoverage`: split the content on
`end_of_record`, scan every line of every section for the LCOV
counters, and convert the totals to whole-number percentages. -/
def parseLcovCoverage (lcovContent : String) : OverallCoverage :=
  let sections := jsSplitOnStr "end_of_record" lcovContent
  let totals := sections.foldl
    (fun acc sec => (jsSplitOnStr "\n" sec).foldl lcovScanLine acc) initLcovTotals
  let lines := lcovPercentage totals.coveredLines totals.totalLines
  { lines := lines
    functions := lcovPercentage totals.coveredFunctions totals.totalFunctions
    branches := lcovPercentage totals.coveredBranches totals.totalBranches
    statements := lines }

/-- `CoverageAnalyzerService.calculatePercentage`: guard `total === 0`,
otherwise round `covered / total * 100` to two decimal places. -/
def calculatePercentage (covered total : ℚ) : ℚ :=
  if total = 0 then 0
  else ((jsRound (covered / total * 100 * 100) : ℤ) : ℚ) / 100

/-- A well-formed LCOV record carrying the counters of the spec's
example. -/
def lcovExample : String :=
  "SF:src/example.ts\nLF:10\nLH:8\nFNF:1\nFNH:1\nBRF:4\nBRH:3\nend_of_record\n"

/-- C6: `parseLcovCoverage` on a record with `LF:10, LH:8, FNF:1,
FNH:1, BRF:4, BRH:3` reports lines = 80, functions = 100,
branches = 75 (and statements copies lines). -/
theorem parseLcov_example_percentages :
    parseLcovCoverage lcovExample =
      { lines := some 80, functions := some 100, branches := some 75,
        statements := some 80 } := by
  have htot : ((jsSplitOnStr "end_of_record" lcovExample).foldl
      (fun acc sec => (jsSplitOnStr "\n" sec).foldl lcovScanLine acc) initLcovTotals)
      = ⟨some 10, some 8, some 1, some 1, some 4, some 3⟩ := by decide
  simp only [parseLcovCoverage, htot, lcovPercentage]
  norm_num [jsRound]

/-- C7: `calculatePercentage 8 10 = 80`, and the `total = 0` guard
returns `0` for every covered value instead of dividing by zero. -/
theorem calculatePercentage_spec :
    calculatePercentage 8 10 = 80 ∧ ∀ c : ℚ, calculatePercentage c 0 = 0 := by
  constructor
  · norm_num [calculatePercentage, jsRound]
  · intro c
    simp [calculatePercentage]

/-! ## TDD cycle validator (src/services/tdd-cycle-validator.ts)

`TDDCycleValidatorService.validateCycle` with the commit history
supplied by the caller.  `determineCurrentState` shells out to test
runners, so the deduced cycle state is a parameter of the embedding; it
only influences the suggestion strings, never the violations or the
score. -/

/-- Red/green/refactor cycle state (types/tdd.ts `TDDCycleState`). -/
inductive TDDCycleState
  | red
  | green
  | refactor
deriving DecidableEq, Repr

/-- Violation categories reported by `analyzeTDDAdherence`. -/
inductive ViolationType
  | no_failing_test
  | premature_implementation
  | skipped_refactor
deriving DecidableEq, Repr

/-- One detected TDD violation. -/
structure Violation where
  vtype : ViolationType
  description : String
  suggestion : String
deriving DecidableEq, Repr

/-- Outcome of `analyzeCommitPatterns`. -/
structure CommitPatternAnalysis where
  testCommits : Nat
  implementationCommits : Nat
  refactorCommits : Nat
  hasImplementationBeforeTests : Bool
  lacksTestCommits : Bool
  lacksRefactorCommits : Bool
  hasMultipleFeatureCommits : Bool
deriving DecidableEq, Repr

/-- Keyword list for test commits; the uppercase `TDD` entry is kept
verbatim from the source (it can never match a lowercased subject). -/
def testKeywords : List String := ["test", "spec", "TDD", "failing test", "red"]

/-- Keyword list for implementation commits. -/
def implementationKeywords : List String := ["implement", "add", "feature", "fix", "green"]

/-- Keyword list for refactoring commits. -/
def refactorKeywords : List String := ["refactor", "cleanup", "improve", "extract", "rename"]

/-- Does a (lowercased) commit subject match any keyword of `ks`? -/
def commitMatches (ks : List String) (commit : String) : Bool :=
  ks.any (fun k => jsIncludes (jsToLower commit) k)

/-- Counters threaded through the commit loop. -/
structure CPAcc where
  testCommits : Nat
  implementationCommits : Nat
  refactorCommits : Nat
  hasImplementationBeforeTests : Bool
deriving DecidableEq, Repr

/-- The indexed loop of `analyzeCommitPatterns`, carrying the previous
commit so that the `i > 0`/`commits[i - 1]` test can be replayed. -/
def commitLoop : Option String → List String → CPAcc → CPAcc
  | _, [], acc => acc
  | prev, c :: rest, acc =>
    let isTest := commitMatches testKeywords c
    let isImplementation := commitMatches implementationKeywords c
    let isRefactor := commitMatches refactorKeywords c
    let acc :=
      { acc with
        testCommits := acc.testCommits + (if isTest then 1 else 0)
        implementationCommits := acc.implementationCommits + (if isImplementation then 1 else 0)
        refactorCommits := acc.refactorCommits + (if isRefactor then 1 else 0) }
    let acc :=
      match prev with
      | some pc =>
        if isImplementation && !commitMatches testKeywords pc then
          { acc with hasImplementationBeforeTests := true }
        else acc
      | none => acc
    commitLoop (some c) rest acc

/-- `TDDCycleValidatorService.analyzeCommitPatterns`. -/
def analyzeCommitPatterns (commits : List String) : CommitPatternAnalysis :=
  let acc := commitLoop none commits ⟨0, 0, 0, false⟩
  { testCommits := acc.testCommits
    implementationCommits := acc.implementationCommits
    refactorCommits := acc.refactorCommits
    hasImplementationBeforeTests := acc.hasImplementationBeforeTests
    lacksTestCommits := acc.testCommits == 0 && commits.length > 0
    lacksRefactorCommits := acc.refactorCommits == 0
    hasMultipleFeatureCommits := acc.implementationCommits > 2 }

/-- The `premature_implementation` violation record. -/
def prematureViolation : Violation :=
  { vtype := .premature_implementation
    description := "Implementation code was committed before corresponding tests"
    suggestion := "Always write failing tests before implementing functionality" }

/-- The `no_failing_test` violation record. -/
def noFailingTestViolation : Violation :=
  { vtype := .no_failing_test
    description := "No test commits found in recent history"
    suggestion := "Ensure you are writing tests as part of your development process" }

/-- The `skipped_refactor` violation record. -/
def skippedRefactorViolation : Violation :=
  { vtype := .skipped_refactor
    description := "Multiple feature implementations without refactoring commits"
    suggestion := "Include refactoring as a regular part of your TDD cycle" }

/-- Result of `analyzeTDDAdherence`. -/
structure TDDAnalysis where
  violations : List Violation
  suggestions : List String
  score : ℤ
deriving DecidableEq, Repr

/-- Suggestions keyed on the deduced cycle state. -/
def stateSuggestions : TDDCycleState → List String
  | .red =>
    ["Write minimal code to make the failing test pass",
     "Focus on functionality, not code quality yet"]
  | .green =>
    ["Look for refactoring opportunities to improve code quality",
     "Remove duplication and improve naming",
     "Consider extracting methods or classes"]
  | .refactor =>
    ["Make small, incremental improvements",
     "Run tests frequently to ensure behavior is preserved",
     "Commit refactoring changes separately"]

/-- `TDDCycleValidatorService.analyzeTDDAdherence`: keyword-match the
commit subjects, collect the violation records, and deduct fixed
amounts from a starting score of 100, clamping at 0. -/
def analyzeTDDAdherence (commits : List String) (currentState : TDDCycleState) : TDDAnalysis :=
  let commitAnalysis := analyzeCommitPatterns commits
  let violations :=
    (if commitAnalysis.hasImplementationBeforeTests then [prematureViolation] else [])
    ++ (if commitAnalysis.lacksTestCommits then [noFailingTestViolation] else [])
    ++ (if commitAnalysis.lacksRefactorCommits && commitAnalysis.hasMultipleFeatureCommits then
          [skippedRefactorViolation] else [])
  let score : ℤ := 100
    - (if commitAnalysis.hasImplementationBeforeTests then 30 else 0)
    - (if commitAnalysis.lacksTestCommits then 25 else 0)
    - (if commitAnalysis.lacksRefactorCommits && commitAnalysis.hasMultipleFeatureCommits then
         20 else 0)
  let suggestions := stateSuggestions currentState
    ++ (if violations.length == 0 then
          ["Great job following TDD! Continue with small, incremental changes"]
        else
          ["Review TDD principles: Red-Green-Refactor cycle",
           "Consider using git commits to track TDD progress"])
  { violations := violations, suggestions := suggestions, score := max score 0 }

/-- Result of `validateCycle`. -/
structure TDDCycleValidation where
  isValid : Bool
  currentState : TDDCycleState
  violations : List Violation
  suggestions : List String
  score : ℤ
deriving DecidableEq, Repr

/-- `TDDCycleValidatorService.validateCycle` with a caller-supplied
`gitHistory`; `currentState` stands for the subprocess-driven
`determineCurrentState`. -/
def validateCycle (gitHistory : List String) (currentState : TDDCycleState) : TDDCycleValidation :=
  let analysis := analyzeTDDAdherence gitHistory currentState
  { isValid := analysis.violations.length == 0
    currentState := currentState
    violations := analysis.violations
    suggestions := analysis.suggestions
    score := analysis.score }

/-- C9: for every commit list the adherence score is 100 minus 30 for a
detected premature-implementation violation, minus 25 for a detected
absence of test commits, minus 20 for a detected skipped-refactor
violation, clamped below at 0; the score lies in 0..100 and `isValid`
holds exactly when no violations were detected. -/
theorem validateCycle_score_spec (commits : List String) (st : TDDCycleState) :
    (validateCycle commits st).score =
      max (100
        - (if (validateCycle commits st).violations.any
              (fun v => decide (v.vtype = .premature_implementation)) then 30 else 0)
        - (if (validateCycle commits st).violations.any
              (fun v => decide (v.vtype = .no_failing_test)) then 25 else 0)
        - (if (validateCycle commits st).violations.any
              (fun v => decide (v.vtype = .skipped_refactor)) then 20 else 0)) 0
    ∧ 0 ≤ (validateCycle commits st).score
    ∧ (validateCycle commits st).score ≤ 100
    ∧ ((validateCycle commits st).isValid = true ↔ (validateCycle commits st).violations = []) := by
  rcases Bool.eq_false_or_eq_true
      ((analyzeCommitPatterns commits).hasImplementationBeforeTests) with hA | hA <;>
  rcases Bool.eq_false_or_eq_true
      ((analyzeCommitPatterns commits).lacksTestCommits) with hB | hB <;>
  rcases Bool.eq_false_or_eq_true
      ((analyzeCommitPatterns commits).lacksRefactorCommits
        && (analyzeCommitPatterns commits).hasMultipleFeatureCommits) with hC | hC <;>
  simp [validateCycle, analyzeTDDAdherence, hA, hB, hC, prematureViolation,
    noFailingTestViolation, skippedRefactorViolation]

/-! ## Supported languages and frameworks (src/types)

`SupportedLanguage` and `TestType` from types/tdd.ts, and the
projection of `SUPPORTED_FRAMEWORKS` (types/test-frameworks.ts) used by
the embedded code: key, display name, language and run/coverage
commands. -/

/-- types/tdd.ts `SupportedLanguage`. -/
inductive SupportedLanguage
  | typescript
  | javascript
  | python
  | java
  | csharp
  | go
  | rust
  | php
deriving DecidableEq, Repr

/-- The string value of a `SupportedLanguage` enum member. -/
def languageValue : SupportedLanguage → String
  | .typescript => "typescript"
  | .javascript => "javascript"
  | .python => "python"
  | .java => "java"
  | .csharp => "csharp"
  | .go => "go"
  | .rust => "rust"
  | .php => "php"

/-- types/tdd.ts `TestType`. -/
inductive TestType
  | unit
  | integration
  | e2e
  | performance
deriving DecidableEq, Repr

/-- One `SUPPORTED_FRAMEWORKS` entry, restricted to the fields the
embedded services read. -/
structure FrameworkConfig where
  key : String
  name : String
  language : SupportedLanguage
  runCmd : String
  coverageCmd : Option String
deriving DecidableEq, Repr

/-- types/test-frameworks.ts `SUPPORTED_FRAMEWORKS`, in object
insertion order. -/
def supportedFrameworks : List FrameworkConfig :=
  [{ key := "jest", name := "Jest", language := .typescript,
     runCmd := "jest", coverageCmd := some "jest --coverage" },
   { key := "mocha", name := "Mocha", language := .typescript,
     runCmd := "mocha", coverageCmd := some "nyc mocha" },
   { key := "vitest", name := "Vitest", language := .typescript,
     runCmd := "vitest run", coverageCmd := some "vitest run --coverage" },
   { key := "pytest", name := "pytest", language := .python,
     runCmd := "pytest", coverageCmd := some "pytest --cov" },
   { key := "unittest", name := "unittest", language := .python,
     runCmd := "python -m unittest discover",
     coverageCmd := some "coverage run -m unittest discover && coverage report" },
   { key := "junit5", name := "JUnit 5", language := .java,
     runCmd := "mvn test", coverageCmd := some "mvn test jacoco:report" },
   { key := "xunit", name := "xUnit", language := .csharp,
     runCmd := "dotnet test", coverageCmd := some "dotnet test --collect:\"XPlat Code Coverage\"" },
   { key := "gotest", name := "Go Test", language := .go,
     runCmd := "go test ./...", coverageCmd := some "go test -cover ./..." },
   { key := "cargo_test", name := "Cargo Test", language := .rust,
     runCmd := "cargo test", coverageCmd := some "cargo tarpaulin" },
   { key := "phpunit", name := "PHPUnit", language := .php,
     runCmd := "./vendor/bin/phpunit",
     coverageCmd := some "./vendor/bin/phpunit --coverage-html coverage" }]

/-! ## Test runner (src/services/test-runner.ts)

`TestRunnerService.runTests` and `handleTestError`.  The subprocess
world (`fs.stat`, `execAsync`, the JSON result files it may leave
behind, and the wall clock) is supplied by an explicit `RunEnv`
value. -/

/-- Status of one executed test. -/
inductive TestStatus
  | passed
  | failed
  | skipped
  | pending
deriving DecidableEq, Repr

/-- types/tdd.ts `TestResult`. -/
structure TestResult where
  name : String
  status : TestStatus
  duration : ℚ
  error : Option String
deriving DecidableEq, Repr

/-- types/tdd.ts `TestSuiteResult.summary`. -/
structure TestSummary where
  total : Nat
  passed : Nat
  failed : Nat
  skipped : Nat
  duration : ℚ
deriving DecidableEq, Repr

/-- types/tdd.ts `TestSuiteResult`. -/
structure TestSuiteResult where
  name : String
  tests : List TestResult
  summary : TestSummary
deriving DecidableEq, Repr

/-- types/tdd.ts `TestResults.overall`. -/
structure OverallResults where
  total : Nat
  passed : Nat
  failed : Nat
  skipped : Nat
  duration : ℚ
  coverage : Option ℚ
deriving DecidableEq, Repr

/-- types/tdd.ts `TestResults`. -/
structure TestResults where
  framework : String
  suites : List TestSuiteResult
  overall : OverallResults
  timestamp : Int
deriving DecidableEq, Repr

/-- `runTests` options; `parallel` is optional because the source
distinguishes `undefined` from an explicit `false`. -/
structure TestRunnerOptions where
  verbose : Bool
  coverage : Bool
  watch : Bool
  parallel : Option Bool
  timeoutMs : Option ℚ
deriving DecidableEq, Repr

/-- `runTests` parameters. -/
structure TestRunnerParams where
  projectPath : String
  testFiles : Option (List String)
  testFramework : String
  options : TestRunnerOptions
deriving DecidableEq, Repr

/-- The external world observed by one `runTests` call:
whether `projectPath` is a directory, the outcome of the spawned test
command, the parsed contents of any result file the command left behind
(`parseJsonResults`; `none` covers both a missing file and a parse
failure), the elapsed wall-clock time, and the current time. -/
structure RunEnv where
  pathIsDirectory : Bool
  execResult : Except String (String × String)
  jsonOutcome : Option TestResults
  durationMs : ℚ
  now : Int

/-- `TestRunnerService.getFrameworkConfig`: first entry whose display
name or key matches the requested framework case-insensitively. -/
def getFrameworkConfig (frameworkName : String) : Option FrameworkConfig :=
  supportedFrameworks.find?
    (fun f => jsToLower f.name == jsToLower frameworkName || f.key == jsToLower frameworkName)

/-- `getVerboseFlag`. -/
def getVerboseFlag (frameworkKey : String) : String :=
  if frameworkKey == "jest" then " --verbose"
  else if frameworkKey == "mocha" then " --reporter spec"
  else if frameworkKey == "vitest" then " --reporter=verbose"
  else if frameworkKey == "pytest" then " -v"
  else if frameworkKey == "unittest" then " -v"
  else if frameworkKey == "junit5" then " -Dtest.verbose=true"
  else if frameworkKey == "xunit" then " -verbose"
  else if frameworkKey == "gotest" then " -v"
  else if frameworkKey == "cargo_test" then " --verbose"
  else if frameworkKey == "phpunit" then " --verbose"
  else ""

/-- `getParallelFlag`. -/
def getParallelFlag (frameworkKey : String) : String :=
  if frameworkKey == "jest" then " --maxWorkers=auto"
  else if frameworkKey == "vitest" then " --reporter=verbose"
  else if frameworkKey == "pytest" then " -n auto"
  else if frameworkKey == "junit5" then " -Djunit.parallel.enabled=true"
  else if frameworkKey == "gotest" then " -parallel"
  else if frameworkKey == "cargo_test" then " --jobs 0"
  else ""

/-- `getJsonOutputFlag`. -/
def getJsonOutputFlag (frameworkKey : String) : String :=
  if frameworkKey == "jest" then " --json --outputFile=test-results.json"
  else if frameworkKey == "mocha" then " --reporter json --reporter-options output=test-results.json"
  else if frameworkKey == "vitest" then " --reporter=json --outputFile=test-results.json"
  else if frameworkKey == "pytest" then " --json-report --json-report-file=test-results.json"
  else if frameworkKey == "junit5" then " -Djunit.platform.reporting.output.dir=test-results"
  else if frameworkKey == "xunit" then " -xml test-results.xml"
  else if frameworkKey == "gotest" then " -json > test-results.json"
  else if frameworkKey == "cargo_test" then " --format json > test-results.json"
  else if frameworkKey == "phpunit" then " --log-json test-results.json"
  else ""

/-- `TestRunnerService.buildTestCommand`. -/
def buildTestCommand (fw : FrameworkConfig) (params : TestRunnerParams) : String :=
  let command := fw.runCmd
  let command :=
    match fw.coverageCmd with
    | some cc => if params.options.coverage then cc else command
    | none => command
  let command := if params.options.verbose then command ++ getVerboseFlag fw.key else command
  let command := if params.options.parallel ≠ some false
    then command ++ getParallelFlag fw.key else command
  let command :=
    match params.testFiles with
    | some files => if files.length > 0 then command ++ " " ++ strIntercalate " " files else command
    | none => command
  command ++ getJsonOutputFlag fw.key

/-- `TestRunnerService.parseTextResults`: scrape the combined output
lines for pass/fail/skip markers. -/
def parseTextResults (stdout stderr : String) (fw : FrameworkConfig) (duration : ℚ) (now : Int) :
    TestResults :=
  let lines := jsSplitOnStr "\n" (stdout ++ "\n" ++ stderr)
  let passedTests := lines.filter
    (fun line => jsIncludes line "✓" || jsIncludes line "PASSED" || jsIncludes line "OK")
  let failedTests := lines.filter
    (fun line => jsIncludes line "✗" || jsIncludes line "FAILED" || jsIncludes line "ERROR")
  let skippedTests := lines.filter
    (fun line => jsIncludes line "SKIPPED" || jsIncludes line "PENDING")
  let tests : List TestResult :=
    passedTests.mapIdx (fun i _ =>
      { name := "Test " ++ toString (i + 1), status := .passed, duration := 0, error := none })
    ++ failedTests.mapIdx (fun i line =>
      { name := "Failed Test " ++ toString (i + 1), status := .failed, duration := 0,
        error := some line })
    ++ skippedTests.mapIdx (fun i _ =>
      { name := "Skipped Test " ++ toString (i + 1), status := .skipped, duration := 0,
        error := none })
  let suite : TestSuiteResult :=
    { name := "Test Suite", tests := tests
      summary := { total := tests.length, passed := passedTests.length,
                   failed := failedTests.length, skipped := skippedTests.length,
                   duration := duration } }
  { framework := fw.name
    suites := [suite]
    overall := { total := tests.length, passed := passedTests.length,
                 failed := failedTests.length, skipped := skippedTests.length,
                 duration := duration, coverage := none }
    timestamp := now }

/-- `TestRunnerService.parseTestResults`: prefer a parsed JSON result
file, fall back to text scraping. -/
def parseTestResults (env : RunEnv) (stdout stderr : String) (fw : FrameworkConfig)
    (duration : ℚ) : TestResults :=
  match env.jsonOutcome with
  | some jsonResults => jsonResults
  | none => parseTextResults stdout stderr fw duration env.now

/-- `TestRunnerService.handleTestError`: convert any caught execution
error into a synthetic result with a single failed test. -/
def handleTestError (errorMessage : String) (framework : String) (now : Int) : TestResults :=
  { framework := framework
    suites :=
      [{ name := "Test Execution Error"
         tests := [{ name := "Test Runner Error", status := .failed, duration := 0,
                     error := some errorMessage }]
         summary := { total := 1, passed := 0, failed := 1, skipped := 0, duration := 0 } }]
    overall := { total := 1, passed := 0, failed := 1, skipped := 0, duration := 0,
                 coverage := none }
    timestamp := now }

/-- `TestRunnerService.runTests`: validate the framework and project
path, run the built command, and either parse its results or convert a
caught failure via `handleTestError`. -/
def runTests (env : RunEnv) (params : TestRunnerParams) : Except String TestResults :=
  match getFrameworkConfig params.testFramework with
  | none => .error ("Unsupported test framework: " ++ params.testFramework)
  | some fw =>
    if !env.pathIsDirectory then .error ("Invalid project path: " ++ params.projectPath)
    else
      let _command := buildTestCommand fw params
      match env.execResult with
      | .error e => .ok (handleTestError e params.testFramework env.now)
      | .ok (stdout, stderr) => .ok (parseTestResults env stdout stderr fw env.durationMs)

/-- C8: whenever the spawned test subprocess fails — whatever the
reason — `runTests` catches the error and returns the synthetic
one-failed-test result instead of propagating it: overall totals are
total = 1, passed = 0, failed = 1, skipped = 0. -/
theorem runTests_subprocess_failure (env : RunEnv) (params : TestRunnerParams)
    (fw : FrameworkConfig) (e : String)
    (hfw : getFrameworkConfig params.testFramework = some fw)
    (hpath : env.pathIsDirectory = true)
    (hexec : env.execResult = .error e) :
    runTests env params = .ok (handleTestError e params.testFramework env.now)
    ∧ (handleTestError e params.testFramework env.now).overall =
        { total := 1, passed := 0, failed := 1, skipped := 0, duration := 0, coverage := none } := by
  refine ⟨?_, rfl⟩
  simp [runTests, hfw, hpath, hexec]

/-- The environment of a failed `jest` invocation (for example a
missing runner binary). -/
def failingJestEnv : RunEnv :=
  { pathIsDirectory := true
    execResult := .error "Command failed: jest --maxWorkers=auto --json --outputFile=test-results.json"
    jsonOutcome := none
    durationMs := 0
    now := 0 }

/-- A concrete `runTests` parameter record targeting `jest`. -/
def jestRunParams : TestRunnerParams :=
  { projectPath := "/tmp/project"
    testFiles := none
    testFramework := "jest"
    options := { verbose := false, coverage := false, watch := false,
                 parallel := none, timeoutMs := none } }

/-- Witness for C8 at a concrete failing environment. -/
theorem runTests_subprocess_failure_witness :
    runTests failingJestEnv jestRunParams =
      .ok (handleTestError
        "Command failed: jest --maxWorkers=auto --json --outputFile=test-results.json" "jest" 0)
    ∧ (handleTestError
        "Command failed: jest --maxWorkers=auto --json --outputFile=test-results.json" "jest" 0).overall =
        { total := 1, passed := 0, failed := 1, skipped := 0, duration := 0, coverage := none } :=
  runTests_subprocess_failure failingJestEnv jestRunParams
    { key := "jest", name := "Jest", language := .typescript,
      runCmd := "jest", coverageCmd := some "jest --coverage" }
    "Command failed: jest --maxWorkers=auto --json --outputFile=test-results.json"
    (by decide) rfl rfl

/-! ## Storage service (src/services/storage.service.ts)

Per-project JSONL files hold serialized records; `JSON.stringify`
writes `Date` values as ISO strings and `restoreDates` converts the
known date field names back with `new Date(...)`.  The embedding keeps
records structurally (a written line is always well formed, so the
malformed-line skip of `readJsonlFile` never fires) and models the
platform date codec abstractly: `DateCodec.enc` stands for
`Date.prototype.toISOString` on a millisecond timestamp and
`DateCodec.dec` for `new Date(string).getTime()`.  The JavaScript
platform guarantees `dec (enc t) = t`; theorems that need it take that
round-trip as a hypothesis. -/

/-- Abstract platform codec between millisecond timestamps and ISO
date strings. -/
structure DateCodec where
  enc : Int → String
  dec : String → Int

/-- types/storage.ts `FeatureStatus`. -/
inductive FeatureStatus
  | planning
  | in_progress
  | completed
  | on_hold
  | cancelled
deriving DecidableEq, Repr

/-- types/storage.ts `FeaturePriority`. -/
inductive FeaturePriority
  | low
  | medium
  | high
  | critical
deriving DecidableEq, Repr

/-- types/storage.ts `TDDStage`. -/
inductive TDDStage
  | red
  | green
  | refactor
deriving DecidableEq, Repr

/-- types/storage.ts `ProgressInfo`. -/
structure ProgressInfo where
  testsWritten : ℚ
  testsPass : ℚ
  implementationFiles : List String
  coveragePercentage : Option ℚ
deriving DecidableEq, Repr

/-- types/storage.ts `Feature` (dates as millisecond timestamps). -/
structure Feature where
  id : String
  projectId : String
  name : String
  description : String
  status : FeatureStatus
  priority : FeaturePriority
  acceptanceCriteria : List String
  createdAt : Int
  updatedAt : Int
  progress : Option ProgressInfo
  tags : Option (List String)
  estimatedHours : Option ℚ
  actualHours : Option ℚ
  assignee : Option String
deriving DecidableEq, Repr

/-- A feature as it sits on one JSONL line: identical to `Feature`
except that the date fields are ISO strings. -/
structure StoredFeature where
  id : String
  projectId : String
  name : String
  description : String
  status : FeatureStatus
  priority : FeaturePriority
  acceptanceCriteria : List String
  createdAt : String
  updatedAt : String
  progress : Option ProgressInfo
  tags : Option (List String)
  estimatedHours : Option ℚ
  actualHours : Option ℚ
  assignee : Option String
deriving DecidableEq, Repr

/-- `JSON.stringify` on a feature: every field survives as is except
the `Date` fields, which become ISO strings. -/
def serializeFeature (c : DateCodec) (f : Feature) : StoredFeature :=
  { id := f.id, projectId := f.projectId, name := f.name, description := f.description
    status := f.status, priority := f.priority, acceptanceCriteria := f.acceptanceCriteria
    createdAt := c.enc f.createdAt, updatedAt := c.enc f.updatedAt
    progress := f.progress, tags := f.tags, estimatedHours := f.estimatedHours
    actualHours := f.actualHours, assignee := f.assignee }

/-- `JSON.parse` followed by `restoreDates`: `createdAt` and
`updatedAt` are in the known date-field list, so both string values are
turned back into dates; no other (possibly nested) field of a feature
has a date-field name. -/
def restoreFeature (c : DateCodec) (sf : StoredFeature) : Feature :=
  { id := sf.id, projectId := sf.projectId, name := sf.name, description := sf.description
    status := sf.status, priority := sf.priority, acceptanceCriteria := sf.acceptanceCriteria
    createdAt := c.dec sf.createdAt, updatedAt := c.dec sf.updatedAt
    progress := sf.progress, tags := sf.tags, estimatedHours := sf.estimatedHours
    actualHours := sf.actualHours, assignee := sf.assignee }

/-- The value constraints of `FeatureSchema` (`zod`); the structural
constraints hold by construction in the embedding. -/
def featureValid (f : Feature) : Bool :=
  decide (1 ≤ f.name.length)
  && (match f.progress with
      | none => true
      | some p => decide (0 ≤ p.testsWritten) && decide (0 ≤ p.testsPass)
          && (match p.coveragePercentage with
              | none => true
              | some cov => decide (0 ≤ cov) && decide (cov ≤ 100)))
  && (match f.estimatedHours with
      | none => true
      | some h => decide (0 < h))
  && (match f.actualHours with
      | none => true
      | some h => decide (0 < h))

/-- types/storage.ts `TDDSession` (dates as millisecond timestamps). -/
structure TDDSession where
  id : String
  featureId : String
  projectId : String
  developer : String
  stage : TDDStage
  startedAt : Int
  updatedAt : Int
  completedAt : Option Int
  notes : Option String
  cycleCount : ℚ
  testFiles : Option (List String)
  implementationFiles : Option (List String)
deriving DecidableEq, Repr

/-- A TDD session on one JSONL line (dates as ISO strings). -/
structure StoredSession where
  id : String
  featureId : String
  projectId : String
  developer : String
  stage : TDDStage
  startedAt : String
  updatedAt : String
  completedAt : Option String
  notes : Option String
  cycleCount : ℚ
  testFiles : Option (List String)
  implementationFiles : Option (List String)
deriving DecidableEq, Repr

/-- `JSON.stringify` on a session. -/
def serializeSession (c : DateCodec) (sess : TDDSession) : StoredSession :=
  { id := sess.id, featureId := sess.featureId, projectId := sess.projectId
    developer := sess.developer, stage := sess.stage
    startedAt := c.enc sess.startedAt, updatedAt := c.enc sess.updatedAt
    completedAt := sess.completedAt.map c.enc
    notes := sess.notes, cycleCount := sess.cycleCount
    testFiles := sess.testFiles, implementationFiles := sess.implementationFiles }

/-- `JSON.parse` followed by `restoreDates` on a session line:
`startedAt`, `updatedAt` and `completedAt` are all known date field
names. -/
def restoreSession (c : DateCodec) (ss : StoredSession) : TDDSession :=
  { id := ss.id, featureId := ss.featureId, projectId := ss.projectId
    developer := ss.developer, stage := ss.stage
    startedAt := c.dec ss.startedAt, updatedAt := c.dec ss.updatedAt
    completedAt := ss.completedAt.map c.dec
    notes := ss.notes, cycleCount := ss.cycleCount
    testFiles := ss.testFiles, implementationFiles := ss.implementationFiles }

/-- The value constraints of `TDDSessionSchema`. -/
def sessionValid (sess : TDDSession) : Bool :=
  decide (0 ≤ sess.cycleCount)

/-- The on-disk state under `~/.tdd-flow/projects`: the project
directories in `readdir` order, and the `features.jsonl` /
`tdd-sessions.jsonl` line lists of each project directory (empty for a
file that does not exist). -/
structure Store where
  projects : List String
  features : String → List StoredFeature
  sessions : String → List StoredSession

/-- The empty storage root. -/
def emptyStore : Store :=
  { projects := [], features := fun _ => [], sessions := fun _ => [] }

/-- `StorageService.ensureProjectDirectory` / `listProjects`:
`fs.ensureDir` makes the project directory appear in later directory
listings; the embedding appends new directories at the end. -/
def ensureProjectDirectory (s : Store) (projectId : String) : Store :=
  if projectId ∈ s.projects then s
  else { s with projects := s.projects ++ [projectId] }

/-- `readJsonlFile` + `restoreDates` on a features file. -/
def readFeaturesFile (c : DateCodec) (s : Store) (projectId : String) : List Feature :=
  (s.features projectId).map (restoreFeature c)

/-- `StorageService.listFeatures`: read the project's features file
and keep the records whose `projectId` matches. -/
def listFeatures (c : DateCodec) (s : Store) (projectId : String) : List Feature :=
  (readFeaturesFile c s projectId).filter (fun f => f.projectId == projectId)

/-- The per-project scan of `StorageService.loadFeature`. -/
def loadFeatureAux (c : DateCodec) (s : Store) (id : String) : List String → Option Feature
  | [] => none
  | p :: rest =>
    match (listFeatures c s p).find? (fun f => f.id == id) with
    | some f => some f
    | none => loadFeatureAux c s id rest

/-- `StorageService.loadFeature`: scan every project directory and
return the first feature with the requested id. -/
def loadFeature (c : DateCodec) (s : Store) (id : String) : Option Feature :=
  loadFeatureAux c s id s.projects

/-- `StorageService.saveFeature`: validate, ensure the project
directory, then append one serialized line to the features file. -/
def storageSaveFeature (c : DateCodec) (s : Store) (feature : Feature) : Except String Store :=
  if !featureValid feature then .error "Invalid feature data: schema validation failed"
  else
    let s2 := ensureProjectDirectory s feature.projectId
    .ok { s2 with
      features := fun p =>
        if p = feature.projectId then s2.features p ++ [serializeFeature c feature]
        else s2.features p }

/-- `StorageService.saveTDDSession`: validate, ensure the project
directory, then append one serialized line to the sessions file. -/
def saveTDDSession (c : DateCodec) (s : Store) (sess : TDDSession) : Except String Store :=
  if !sessionValid sess then .error "Invalid TDD session data: schema validation failed"
  else
    let s2 := ensureProjectDirectory s sess.projectId
    .ok { s2 with
      sessions := fun p =>
        if p = sess.projectId then s2.sessions p ++ [serializeSession c sess]
        else s2.sessions p }

/-- Replace the first element satisfying `p` (the in-place mutation of
the record that `Array.prototype.find` returned). -/
def updateFirst (p : α → Bool) (f : α → α) : List α → List α
  | [] => []
  | x :: rest => if p x then f x :: rest else x :: updateFirst p f rest

/-- The per-project scan of `StorageService.updateTDDSessionStage`:
deserialize the file, mutate the first matching session, and rewrite
the whole file. -/
def updateSessionStageAux (c : DateCodec) (now : Int) (s : Store) (id : String)
    (stage : TDDStage) : List String → Bool × Store
  | [] => (false, s)
  | p :: rest =>
    let sessions := (s.sessions p).map (restoreSession c)
    if sessions.any (fun sess => sess.id == id) then
      let rewritten := updateFirst (fun sess => sess.id == id)
        (fun sess => { sess with stage := stage, updatedAt := now }) sessions
      (true, { s with
        sessions := fun q =>
          if q = p then rewritten.map (serializeSession c) else s.sessions q })
    else updateSessionStageAux c now s id stage rest

/-- `StorageService.updateTDDSessionStage`. -/
def updateTDDSessionStage (c : DateCodec) (now : Int) (s : Store) (id : String)
    (stage : TDDStage) : Bool × Store :=
  updateSessionStageAux c now s id stage s.projects

/-! ## Feature management service
(src/services/feature-management.service.ts) -/

/-- `Partial<ProgressInfo>` as passed in the update parameters. -/
structure PartialProgressInfo where
  testsWritten : Option ℚ
  testsPass : Option ℚ
  implementationFiles : Option (List String)
  coveragePercentage : Option ℚ
deriving DecidableEq, Repr

/-- types/storage.ts `UpdateFeatureStatusParams`. -/
structure UpdateFeatureStatusParams where
  featureId : String
  status : FeatureStatus
  progress : Option PartialProgressInfo
  notes : Option String
deriving DecidableEq, Repr

/-- `FeatureManagementService.updateFeatureStatus`: load the feature by
id (throwing `Feature not found` if absent), apply the status and
optional progress update, and persist through
`StorageService.saveFeature` — which appends.  The store is returned
alongside the result; a thrown error leaves it untouched because the
throw happens before any write. -/
def serviceUpdateFeatureStatus (c : DateCodec) (now : Int) (s : Store)
    (params : UpdateFeatureStatusParams) : Except String Feature × Store :=
  match loadFeature c s params.featureId with
  | none => (.error ("Feature not found: " ++ params.featureId), s)
  | some existingFeature =>
    let updatedFeature : Feature :=
      { existingFeature with status := params.status, updatedAt := now }
    let updatedFeature :=
      match params.progress with
      | none => updatedFeature
      | some prog =>
        let existingProgress := existingFeature.progress.getD
          { testsWritten := 0, testsPass := 0, implementationFiles := [],
            coveragePercentage := none }
        { updatedFeature with
          progress := some
            { testsWritten := prog.testsWritten.getD existingProgress.testsWritten
              testsPass := prog.testsPass.getD existingProgress.testsPass
              implementationFiles :=
                prog.implementationFiles.getD existingProgress.implementationFiles
              coveragePercentage :=
                match prog.coveragePercentage with
                | some v => some v
                | none => existingProgress.coveragePercentage } }
    match storageSaveFeature c s updatedFeature with
    | .error e => (.error e, s)
    | .ok s2 => (.ok updatedFeature, s2)

/-! ## Properties of the storage and feature-management services -/

/-- Restoring dates never changes the id field. -/
theorem restoreFeature_id (c : DateCodec) (sf : StoredFeature) :
    (restoreFeature c sf).id = sf.id := rfl

/-- With the platform round-trip guarantee, deserialization inverts
serialization exactly — all fields, dates to the millisecond. -/
theorem restoreFeature_serializeFeature (c : DateCodec)
    (hc : ∀ t, c.dec (c.enc t) = t) (f : Feature) :
    restoreFeature c (serializeFeature c f) = f := by
  cases f
  simp [restoreFeature, serializeFeature, hc]

/-- `ensureProjectDirectory` never touches the stored files. -/
theorem ensureProjectDirectory_features (s : Store) (pid : String) :
    (ensureProjectDirectory s pid).features = s.features := by
  unfold ensureProjectDirectory
  split <;> rfl

/-- `ensureProjectDirectory` is the identity on an existing project. -/
theorem ensureProjectDirectory_of_mem (s : Store) (pid : String) (h : pid ∈ s.projects) :
    ensureProjectDirectory s pid = s := by
  simp [ensureProjectDirectory, h]

/-- If no stored record anywhere carries the requested id, the project
scan of `loadFeature` comes up empty. -/
theorem loadFeatureAux_eq_none (c : DateCodec) (s : Store) (id : String) (ps : List String)
    (h : ∀ p ∈ ps, ∀ sf ∈ s.features p, sf.id ≠ id) :
    loadFeatureAux c s id ps = none := by
  induction ps with
  | nil => rfl
  | cons p rest ih =>
    have hfind : (listFeatures c s p).find? (fun f => f.id == id) = none := by
      rw [List.find?_eq_none]
      intro f hf
      simp only [listFeatures, readFeaturesFile, List.mem_filter, List.mem_map] at hf
      obtain ⟨⟨sf, hsf, rfl⟩, _⟩ := hf
      simpa [restoreFeature_id] using h p (by simp) sf hsf
    rw [loadFeatureAux, hfind]
    exact ih fun q hq => h q (by simp [hq])

/-- C3: updating the status of an id that matches no stored feature
record fails with the `Feature not found` error and returns the store
exactly as it was — in particular no record with that id was
created. -/
theorem updateFeatureStatus_not_found (c : DateCodec) (now : Int) (s : Store)
    (params : UpdateFeatureStatusParams)
    (h : ∀ p ∈ s.projects, ∀ sf ∈ s.features p, sf.id ≠ params.featureId) :
    serviceUpdateFeatureStatus c now s params =
      (.error ("Feature not found: " ++ params.featureId), s) := by
  have hnone : loadFeature c s params.featureId = none :=
    loadFeatureAux_eq_none c s params.featureId s.projects h
  simp [serviceUpdateFeatureStatus, loadFeature] at hnone ⊢
  simp [hnone]

/-- A placeholder platform codec for witnesses that do not read
dates. -/
def trivialCodec : DateCodec :=
  { enc := fun _ => "", dec := fun _ => 0 }

/-- Witness for C3: on an empty store every id is missing. -/
theorem updateFeatureStatus_not_found_witness :
    serviceUpdateFeatureStatus trivialCodec 0 emptyStore
      { featureId := "missing-id", status := .completed, progress := none, notes := none } =
      (.error ("Feature not found: " ++ "missing-id"), emptyStore) :=
  updateFeatureStatus_not_found trivialCodec 0 emptyStore _
    (by intro p hp; simp [emptyStore] at hp)

/-- C4: saving a valid feature succeeds and `listFeatures` on its
project then lists a record equal to the saved one field for field —
the appended line deserializes back to exactly the saved record, the
date fields (by the platform codec round-trip) to the millisecond. -/
theorem saveFeature_listFeatures_roundtrip (c : DateCodec)
    (hc : ∀ t, c.dec (c.enc t) = t) (s : Store) (f : Feature)
    (hv : featureValid f = true) :
    ∃ s2, storageSaveFeature c s f = .ok s2 ∧
      listFeatures c s2 f.projectId = listFeatures c s f.projectId ++ [f] ∧
      f ∈ listFeatures c s2 f.projectId := by
  have hsave : storageSaveFeature c s f = .ok
      { ensureProjectDirectory s f.projectId with
        features := fun p =>
          if p = f.projectId
          then (ensureProjectDirectory s f.projectId).features p ++ [serializeFeature c f]
          else (ensureProjectDirectory s f.projectId).features p } := by
    simp [storageSaveFeature, hv]
  have hlist : listFeatures c
      { ensureProjectDirectory s f.projectId with
        features := fun p =>
          if p = f.projectId
          then (ensureProjectDirectory s f.projectId).features p ++ [serializeFeature c f]
          else (ensureProjectDirectory s f.projectId).features p } f.projectId
      = listFeatures c s f.projectId ++ [f] := by
    simp only [listFeatures, readFeaturesFile]
    simp [ensureProjectDirectory_features, List.filter_append,
      restoreFeature_serializeFeature c hc f]
  refine ⟨_, hsave, hlist, ?_⟩
  rw [hlist]
  exact List.mem_append_right _ (by simp)

/-- A concrete codec satisfying the platform round-trip contract, used
to instantiate witnesses: the timestamp is stored in tally notation. -/
def tallyCodec : DateCodec :=
  { enc := fun t => String.mk (List.replicate t.toNat '1' ++ List.replicate (-t).toNat '2')
    dec := fun str => (str.data.count '1' : Int) - (str.data.count '2' : Int) }

/-- The tally codec round-trips every timestamp. -/
theorem tallyCodec_roundtrip : ∀ t : Int, tallyCodec.dec (tallyCodec.enc t) = t := by
  intro t
  simp [tallyCodec, List.count_append, List.count_replicate]

/-- A concrete valid feature record. -/
def sampleFeature : Feature :=
  { id := "feature-1", projectId := "project-1", name := "Login",
    description := "User login flow", status := .planning, priority := .medium,
    acceptanceCriteria := ["user can log in"], createdAt := 1, updatedAt := 2,
    progress := none, tags := some ["auth"], estimatedHours := none,
    actualHours := none, assignee := none }

/-- Witness for C4 at a concrete feature and codec. -/
theorem saveFeature_listFeatures_roundtrip_witness :
    ∃ s2, storageSaveFeature tallyCodec emptyStore sampleFeature = .ok s2 ∧
      listFeatures tallyCodec s2 sampleFeature.projectId =
        listFeatures tallyCodec emptyStore sampleFeature.projectId ++ [sampleFeature] ∧
      sampleFeature ∈ listFeatures tallyCodec s2 sampleFeature.projectId :=
  saveFeature_listFeatures_roundtrip tallyCodec tallyCodec_roundtrip emptyStore
    sampleFeature (by decide)

/-- What a successful `loadFeature` scan guarantees: the record carries
the requested id, its project is among the scanned ones, and it is the
first match in its own project's listing. -/
theorem loadFeatureAux_mem (c : DateCodec) (s : Store) (id : String) (ps : List String)
    (f : Feature) (h : loadFeatureAux c s id ps = some f) :
    f.id = id ∧ f.projectId ∈ ps ∧
    (listFeatures c s f.projectId).find? (fun g => g.id == id) = some f ∧
    f ∈ listFeatures c s f.projectId := by
  induction ps with
  | nil => simp [loadFeatureAux] at h
  | cons p rest ih =>
    rw [loadFeatureAux] at h
    cases hfind : (listFeatures c s p).find? (fun g => g.id == id) with
    | some g =>
      rw [hfind] at h
      simp only [Option.some.injEq] at h
      rw [h] at hfind
      have hid := List.find?_some hfind
      have hmem : f ∈ listFeatures c s p := List.mem_of_find?_eq_some hfind
      have hproj : f.projectId = p := by
        have h2 := hmem
        simp only [listFeatures, List.mem_filter, beq_iff_eq] at h2
        exact h2.2
      refine ⟨by simpa using hid, ?_, ?_, ?_⟩
      · simp [hproj]
      · rw [hproj]; exact hfind
      · rw [hproj]; exact hmem
    | none =>
      rw [hfind] at h
      simp only at h
      obtain ⟨h1, h2, h3, h4⟩ := ih h
      exact ⟨h1, by simp [h2], h3, h4⟩

/-- `find?` looks left first. -/
theorem find?_append_left {α : Type} (l1 l2 : List α) (p : α → Bool) (a : α)
    (h : l1.find? p = some a) : (l1 ++ l2).find? p = some a := by
  rw [List.find?_append, h]
  rfl

/-- Appending one line to the features file of the found feature's own
project does not change which record `loadFeature` returns: the scan
still stops at the first (old) copy. -/
theorem loadFeatureAux_after_append (c : DateCodec) (s s2 : Store) (id : String)
    (f : Feature) (extra : StoredFeature)
    (hs2 : ∀ q, s2.features q =
      if q = f.projectId then s.features f.projectId ++ [extra] else s.features q)
    (ps : List String)
    (h : loadFeatureAux c s id ps = some f) :
    loadFeatureAux c s2 id ps = some f := by
  induction ps with
  | nil => simp [loadFeatureAux] at h
  | cons p rest ih =>
    rw [loadFeatureAux] at h
    rw [loadFeatureAux]
    by_cases hp : p = f.projectId
    · cases hfind : (listFeatures c s p).find? (fun g => g.id == id) with
      | some g =>
        rw [hfind] at h
        simp only [Option.some.injEq] at h
        rw [h] at hfind
        have hfound2 : (listFeatures c s2 p).find? (fun g => g.id == id) = some f := by
          have hlist2 : listFeatures c s2 p =
              listFeatures c s p ++
                (List.filter (fun g => g.projectId == p) [restoreFeature c extra]) := by
            have hfp : s2.features p = s.features f.projectId ++ [extra] := by
              rw [hs2 p, if_pos hp]
            rw [← hp] at hfp
            simp only [listFeatures, readFeaturesFile, hfp, List.map_append,
              List.filter_append, List.map_cons, List.map_nil]
          rw [hlist2]
          exact find?_append_left _ _ _ _ hfind
        rw [hfound2]
      | none =>
        rw [hfind] at h
        simp only at h
        obtain ⟨-, -, h3, -⟩ := loadFeatureAux_mem c s id rest f h
        rw [hp, h3] at hfind
        cases hfind
    · have hsame : s2.features p = s.features p := by
        rw [hs2 p, if_neg hp]
      have hlist : listFeatures c s2 p = listFeatures c s p := by
        simp [listFeatures, readFeaturesFile, hsame]
      rw [hlist]
      cases hfind : (listFeatures c s p).find? (fun g => g.id == id) with
      | some g =>
        rw [hfind] at h
        exact h
      | none =>
        rw [hfind] at h
        simp only at h
        exact ih h

/-- C10: after a successful `updateFeatureStatus`, the updated record
has been appended as a second line with the same id rather than
replacing the old one: `listFeatures` now returns both the old and the
new record, and `loadFeature` still returns the first stored copy with
the pre-update status. -/
theorem updateFeatureStatus_appends_duplicate (c : DateCodec)
    (hc : ∀ t, c.dec (c.enc t) = t) (now : Int) (s : Store) (f : Feature)
    (newStatus : FeatureStatus)
    (hload : loadFeature c s f.id = some f)
    (hv : featureValid f = true) :
    (serviceUpdateFeatureStatus c now s
        { featureId := f.id, status := newStatus, progress := none, notes := none }).1 =
      .ok { f with status := newStatus, updatedAt := now } ∧
    ((serviceUpdateFeatureStatus c now s
        { featureId := f.id, status := newStatus, progress := none, notes := none }).2).features
        f.projectId =
      s.features f.projectId ++
        [serializeFeature c { f with status := newStatus, updatedAt := now }] ∧
    listFeatures c (serviceUpdateFeatureStatus c now s
        { featureId := f.id, status := newStatus, progress := none, notes := none }).2
        f.projectId =
      listFeatures c s f.projectId ++ [{ f with status := newStatus, updatedAt := now }] ∧
    f ∈ listFeatures c (serviceUpdateFeatureStatus c now s
        { featureId := f.id, status := newStatus, progress := none, notes := none }).2
        f.projectId ∧
    loadFeature c (serviceUpdateFeatureStatus c now s
        { featureId := f.id, status := newStatus, progress := none, notes := none }).2 f.id =
      some f := by
  obtain ⟨-, hmemp, hfindpid, hmemlist⟩ := loadFeatureAux_mem c s f.id s.projects f hload
  have hens : ensureProjectDirectory s f.projectId = s :=
    ensureProjectDirectory_of_mem s f.projectId hmemp
  have hvu : featureValid { f with status := newStatus, updatedAt := now } = true := hv
  have hr : serviceUpdateFeatureStatus c now s
      { featureId := f.id, status := newStatus, progress := none, notes := none } =
      (.ok { f with status := newStatus, updatedAt := now },
        { s with features := fun p =>
            if p = f.projectId
            then s.features p ++
              [serializeFeature c { f with status := newStatus, updatedAt := now }]
            else s.features p }) := by
    simp only [serviceUpdateFeatureStatus, loadFeature] at hload ⊢
    rw [hload]
    simp only [storageSaveFeature, hvu, Bool.not_true, Bool.false_eq_true, if_false]
    rw [hens]
  rw [hr]
  have hfile : (fun p =>
      if p = f.projectId
      then s.features p ++
        [serializeFeature c { f with status := newStatus, updatedAt := now }]
      else s.features p) f.projectId =
      s.features f.projectId ++
        [serializeFeature c { f with status := newStatus, updatedAt := now }] := by
    simp
  have hlist : listFeatures c
      { s with features := fun p =>
          if p = f.projectId
          then s.features p ++
            [serializeFeature c { f with status := newStatus, updatedAt := now }]
          else s.features p } f.projectId =
      listFeatures c s f.projectId ++ [{ f with status := newStatus, updatedAt := now }] := by
    simp only [listFeatures, readFeaturesFile, hfile, List.map_append, List.filter_append]
    simp [restoreFeature_serializeFeature c hc]
  refine ⟨rfl, hfile, hlist, ?_, ?_⟩
  · rw [hlist]
    exact List.mem_append_left _ hmemlist
  · exact loadFeatureAux_after_append c s _ f.id f
      (serializeFeature c { f with status := newStatus, updatedAt := now })
      (fun q => by by_cases hq : q = f.projectId <;> simp [hq]) s.projects hload

/-- A one-feature store where `sampleFeature` has been saved once. -/
def oneFeatureStore : Store :=
  { projects := ["project-1"]
    features := fun p => if p = "project-1" then [serializeFeature tallyCodec sampleFeature] else []
    sessions := fun _ => [] }

/-- The concrete status-update parameters used by the C10 witness. -/
def sampleUpdateParams : UpdateFeatureStatusParams :=
  { featureId := sampleFeature.id, status := .in_progress, progress := none, notes := none }

/-- `sampleFeature` after the C10 witness update. -/
def sampleFeatureUpdated : Feature :=
  { sampleFeature with status := .in_progress, updatedAt := 3 }

/-- Witness for C10 at a concrete one-feature store. -/
theorem updateFeatureStatus_appends_duplicate_witness :
    (serviceUpdateFeatureStatus tallyCodec 3 oneFeatureStore sampleUpdateParams).1 =
      .ok sampleFeatureUpdated ∧
    ((serviceUpdateFeatureStatus tallyCodec 3 oneFeatureStore
        sampleUpdateParams).2).features sampleFeature.projectId =
      oneFeatureStore.features sampleFeature.projectId ++
        [serializeFeature tallyCodec sampleFeatureUpdated] ∧
    listFeatures tallyCodec (serviceUpdateFeatureStatus tallyCodec 3 oneFeatureStore
        sampleUpdateParams).2 sampleFeature.projectId =
      listFeatures tallyCodec oneFeatureStore sampleFeature.projectId ++
        [sampleFeatureUpdated] ∧
    sampleFeature ∈ listFeatures tallyCodec (serviceUpdateFeatureStatus tallyCodec 3
        oneFeatureStore sampleUpdateParams).2 sampleFeature.projectId ∧
    loadFeature tallyCodec (serviceUpdateFeatureStatus tallyCodec 3 oneFeatureStore
        sampleUpdateParams).2 sampleFeature.id = some sampleFeature :=
  updateFeatureStatus_appends_duplicate tallyCodec tallyCodec_roundtrip 3
    oneFeatureStore sampleFeature .in_progress (by decide) (by decide)

/-! ## Test generator (src/services/test-generator.ts)

`TestGeneratorService.generateTests` and the keyword-driven helpers it
is built from.  Thrown errors (unsupported framework, unsupported
language in `generateTestCode`) surface as `Except.error`. -/

/-- Sentence punctuation of the `/[.!?]+/` split in
`parseRequirements`. -/
def isSentencePunct (c : Char) : Bool :=
  c = '.' || c = '!' || c = '?'

/-- `TestGeneratorService.parseRequirements`: split into sentences,
keep those containing should/must/when/given, and fall back to the
whole requirement string when none match. -/
def parseRequirements (requirements : String) : List String :=
  let sentences := (splitRuns isSentencePunct requirements).filter
    (fun s => (jsTrim s).length > 0)
  let behaviors := (sentences.map jsTrim).filter (fun t =>
    jsIncludes (jsToLower t) "should" || jsIncludes (jsToLower t) "must" ||
    jsIncludes (jsToLower t) "when" || jsIncludes (jsToLower t) "given")
  if behaviors.isEmpty then [requirements] else behaviors

/-- `TestGeneratorService.identifyEdgeCases`: fixed keyword to
canned-case-list lookup with a generic fallback. -/
def identifyEdgeCases (behavior : String) : List String :=
  let lb := jsToLower behavior
  let numberCases := if jsIncludes lb "number" || jsIncludes lb "count"
    then ["zero value", "negative value", "maximum value"] else []
  let stringCases := if jsIncludes lb "string" || jsIncludes lb "text"
    then ["empty string", "very long string", "special characters"] else []
  let arrayCases := if jsIncludes lb "array" || jsIncludes lb "list"
    then ["empty array", "single element", "very large array"] else []
  let edgeCases := numberCases ++ stringCases ++ arrayCases
  if edgeCases.isEmpty then ["boundary condition", "extreme value"] else edgeCases

/-- `TestGeneratorService.identifyErrorCases`. -/
def identifyErrorCases (behavior : String) : List String :=
  let lb := jsToLower behavior
  ["null input", "invalid input", "unauthorized access"]
  ++ (if jsIncludes lb "database" || jsIncludes lb "storage"
      then ["connection failure", "timeout"] else [])
  ++ (if jsIncludes lb "network" || jsIncludes lb "api"
      then ["network error", "server error"] else [])

/-- Characters kept by `replace(/[^a-z0-9\s]/g, "")`. -/
def keepLowerDigitSpace (c : Char) : Bool :=
  ('a' ≤ c && c ≤ 'z') || ('0' ≤ c && c ≤ '9') || isSpaceChar c

/-- `replace(/\s+/g, "_")`. -/
def underscoreSpaces (s : String) : String :=
  jsReplaceRuns isSpaceChar "_" s

/-- `replace(/^(should_|must_|when_|given_)/, "")`. -/
def dropBehaviorLead (s : String) : String :=
  if jsStartsWith s "should_" then jsDropChars s 7
  else if jsStartsWith s "must_" then jsDropChars s 5
  else if jsStartsWith s "when_" then jsDropChars s 5
  else if jsStartsWith s "given_" then jsDropChars s 6
  else s

/-- `TestGeneratorService.generateTestName` (its `testType` parameter
is unused in the source as well). -/
def generateTestName (behavior : String) (_testType : String)
    (specificCase : Option String) : String :=
  let name := String.mk ((jsToLower behavior).data.filter keepLowerDigitSpace)
  let name := underscoreSpaces name
  let name := dropBehaviorLead name
  let name :=
    match specificCase with
    | some sc => name ++ "_" ++ underscoreSpaces (jsToLower sc)
    | none => name
  "test_" ++ name

/-- `charAt(0).toUpperCase() + slice(1).toLowerCase()`. -/
def jsCapitalizeLower (w : String) : String :=
  match w.data with
  | [] => ""
  | c :: rest => String.mk (c.toUpper :: rest.map Char.toLower)

/-- `TestGeneratorService.extractClassName`. -/
def extractClassName (behavior : String) : String :=
  let words := jsSplitOnStr " " behavior
  let relevantWords := words.filter (fun w =>
    w.length > 2 &&
    !(["the", "and", "or", "but", "should", "must", "when", "given"].contains (jsToLower w)))
  match relevantWords with
  | [] => "TestSubject"
  | w :: _ => jsCapitalizeLower w

/-- `TestGeneratorService.extractMethodName`. -/
def extractMethodName (behavior : String) : String :=
  let words := jsSplitOnStr " " (jsToLower behavior)
  let verbs := ["create", "update", "delete", "get", "set", "calculate", "process", "validate"]
  match verbs.find? (fun v => words.contains v) with
  | some v => v
  | none => "execute"

/-- Interpolation of a possibly-undefined value into a template. -/
def optInterp (o : Option String) : String :=
  o.getD "undefined"

/-- `TestGeneratorService.generateArrangeSection`. -/
def generateArrangeSection (testType : String) (specificCase : Option String) : String :=
  if testType == "happy_path" then "// Set up valid test data"
  else if testType == "edge_case" then "// Set up edge case data for: " ++ optInterp specificCase
  else if testType == "error_case" then "// Set up invalid data to trigger: " ++ optInterp specificCase
  else "// Set up test data"

/-- `TestGeneratorService.generateActSection`. -/
def generateActSection (testType className methodName : String)
    (lang : SupportedLanguage) : String :=
  let objectName := jsToLower className
  if testType == "error_case" then
    match lang with
    | .typescript | .javascript =>
      "expect(() => " ++ objectName ++ "." ++ methodName ++ "(testData)).toThrow();"
    | .python =>
      "with pytest.raises(Exception):\n        " ++ objectName ++ "." ++ methodName ++ "(test_data)"
    | .java =>
      "assertThrows(Exception.class, () -> " ++ objectName ++ "." ++ methodName ++ "(testData));"
    | .csharp =>
      "Assert.Throws<Exception>(() => " ++ objectName ++ "." ++ methodName ++ "(testData));"
    | _ => "const result = " ++ objectName ++ "." ++ methodName ++ "(testData);"
  else "const result = " ++ objectName ++ "." ++ methodName ++ "(testData);"

/-- `TestGeneratorService.generateAssertSection`. -/
def generateAssertSection (testType : String) (lang : SupportedLanguage) : String :=
  if testType == "error_case" then "// Error case assertion handled in Act section"
  else
    match lang with
    | .typescript | .javascript =>
      "expect(result).toBeDefined();\n    // Add specific assertions based on expected behavior"
    | .python =>
      "assert result is not None\n    # Add specific assertions based on expected behavior"
    | .java =>
      "assertNotNull(result);\n    // Add specific assertions based on expected behavior"
    | .csharp =>
      "Assert.NotNull(result);\n    // Add specific assertions based on expected behavior"
    | _ => "// Add assertions based on expected behavior"

/-- `TestGeneratorService.generateJavaScriptTestCode` (the `jest`
template, with the plain-comment fallback for other frameworks). -/
def generateJavaScriptTestCode (testName behavior testType : String)
    (framework : String) (lang : SupportedLanguage) (specificCase : Option String) : String :=
  let className := extractClassName behavior
  let methodName := extractMethodName behavior
  if framework == "jest" then
    "describe(\x27" ++ className ++ "\x27, () => \x7b\n  it(\x27" ++ behavior
      ++ "\x27, () => \x7b\n    // Arrange\n    const " ++ jsToLower className
      ++ " = new " ++ className ++ "();\n    "
      ++ generateArrangeSection testType specificCase
      ++ "\n    \n    // Act\n    "
      ++ generateActSection testType className methodName lang
      ++ "\n    \n    // Assert\n    "
      ++ generateAssertSection testType lang
      ++ "\n  \x7d);\n\x7d);"
  else "// Test code for " ++ testName

/-- `TestGeneratorService.generatePythonTestCode`. -/
def generatePythonTestCode (testName behavior testType : String)
    (framework : String) (lang : SupportedLanguage) (specificCase : Option String) : String :=
  let className := extractClassName behavior
  let methodName := extractMethodName behavior
  if framework == "pytest" then
    "def " ++ testName ++ "():\n    \"\"\"" ++ behavior ++ "\"\"\"\n    # Arrange\n    "
      ++ jsToLower className ++ " = " ++ className ++ "()\n    "
      ++ generateArrangeSection testType specificCase
      ++ "\n    \n    # Act\n    "
      ++ generateActSection testType className methodName lang
      ++ "\n    \n    # Assert\n    "
      ++ generateAssertSection testType lang
  else "# Test code for " ++ testName

/-- `TestGeneratorService.generateJavaTestCode`. -/
def generateJavaTestCode (testName behavior testType : String)
    (lang : SupportedLanguage) (specificCase : Option String) : String :=
  let className := extractClassName behavior
  let methodName := extractMethodName behavior
  "@Test\npublic void " ++ testName ++ "() \x7b\n    // " ++ behavior
    ++ "\n    \n    // Arrange\n    " ++ className ++ " " ++ jsToLower className
    ++ " = new " ++ className ++ "();\n    "
    ++ generateArrangeSection testType specificCase
    ++ "\n    \n    // Act\n    "
    ++ generateActSection testType className methodName lang
    ++ "\n    \n    // Assert\n    "
    ++ generateAssertSection testType lang
    ++ "\n\x7d"

/-- `TestGeneratorService.generateCSharpTestCode`. -/
def generateCSharpTestCode (testName behavior testType : String)
    (lang : SupportedLanguage) (specificCase : Option String) : String :=
  let className := extractClassName behavior
  let methodName := extractMethodName behavior
  "[Test]\npublic void " ++ testName ++ "()\n\x7b\n    // " ++ behavior
    ++ "\n    \n    // Arrange\n    var " ++ jsToLower className
    ++ " = new " ++ className ++ "();\n    "
    ++ generateArrangeSection testType specificCase
    ++ "\n    \n    // Act\n    "
    ++ generateActSection testType className methodName lang
    ++ "\n    \n    // Assert\n    "
    ++ generateAssertSection testType lang
    ++ "\n\x7d"

/-- Generated test parameters (the fields `generateTests` reads). -/
structure TestGenerationParams where
  requirements : String
  language : SupportedLanguage
  framework : String
  testType : TestType
  existingCode : Option String
deriving DecidableEq, Repr

/-- `TestGeneratorService.generateTestCode`: dispatch on the language,
throwing for languages without a generator. -/
def generateTestCode (testName behavior testType : String) (p : TestGenerationParams)
    (specificCase : Option String) : Except String String :=
  match p.language with
  | .typescript =>
    .ok (generateJavaScriptTestCode testName behavior testType p.framework p.language specificCase)
  | .javascript =>
    .ok (generateJavaScriptTestCode testName behavior testType p.framework p.language specificCase)
  | .python =>
    .ok (generatePythonTestCode testName behavior testType p.framework p.language specificCase)
  | .java =>
    .ok (generateJavaTestCode testName behavior testType p.language specificCase)
  | .csharp =>
    .ok (generateCSharpTestCode testName behavior testType p.language specificCase)
  | lang =>
    .error ("Code generation not implemented for language: " ++ languageValue lang)

/-- `TestGeneratorService.getRequiredImports`. -/
def getRequiredImports (lang : SupportedLanguage) (framework : String) : List String :=
  match lang with
  | .typescript =>
    if framework == "jest" then ["import \x7b describe, it, expect \x7d from \x27@jest/globals\x27;"] else []
  | .javascript =>
    if framework == "jest" then ["import \x7b describe, it, expect \x7d from \x27@jest/globals\x27;"] else []
  | .python =>
    if framework == "pytest" then ["import pytest"] else []
  | .java =>
    ["import org.junit.jupiter.api.Test;", "import static org.junit.jupiter.api.Assertions.*;"]
  | .csharp => ["using NUnit.Framework;"]
  | _ => []

/-- types/tdd.ts `GeneratedTest` (its optional `setup`/`teardown`
fields are never produced by the service). -/
structure GeneratedTest where
  name : String
  description : String
  code : String
  imports : List String
deriving DecidableEq, Repr

/-- `TestGeneratorService.generateHappyPathTest`. -/
def generateHappyPathTest (behavior : String) (p : TestGenerationParams) :
    Except String GeneratedTest :=
  let testName := generateTestName behavior "happy_path" none
  match generateTestCode testName behavior "happy_path" p none with
  | .error e => .error e
  | .ok code =>
    .ok { name := testName
          description := "Test the happy path for: " ++ behavior
          code := code
          imports := getRequiredImports p.language p.framework }

/-- The per-edge-case loop of `generateEdgeCaseTests`. -/
def edgeLoop (behavior : String) (p : TestGenerationParams) :
    List String → Except String (List GeneratedTest)
  | [] => .ok []
  | edgeCase :: rest =>
    let testName := generateTestName behavior "edge_case" (some edgeCase)
    match generateTestCode testName behavior "edge_case" p (some edgeCase) with
    | .error e => .error e
    | .ok code =>
      match edgeLoop behavior p rest with
      | .error e => .error e
      | .ok tail =>
        .ok ({ name := testName
               description := "Test edge case: " ++ edgeCase
               code := code
               imports := getRequiredImports p.language p.framework } :: tail)

/-- `TestGeneratorService.generateEdgeCaseTests`. -/
def generateEdgeCaseTests (behavior : String) (p : TestGenerationParams) :
    Except String (List GeneratedTest) :=
  edgeLoop behavior p (identifyEdgeCases behavior)

/-- The per-error-case loop of `generateErrorCaseTests`. -/
def errorLoop (behavior : String) (p : TestGenerationParams) :
    List String → Except String (List GeneratedTest)
  | [] => .ok []
  | errorCase :: rest =>
    let testName := generateTestName behavior "error_case" (some errorCase)
    match generateTestCode testName behavior "error_case" p (some errorCase) with
    | .error e => .error e
    | .ok code =>
      match errorLoop behavior p rest with
      | .error e => .error e
      | .ok tail =>
        .ok ({ name := testName
               description := "Test error case: " ++ errorCase
               code := code
               imports := getRequiredImports p.language p.framework } :: tail)

/-- `TestGeneratorService.generateErrorCaseTests`. -/
def generateErrorCaseTests (behavior : String) (p : TestGenerationParams) :
    Except String (List GeneratedTest) :=
  errorLoop behavior p (identifyErrorCases behavior)

/-- The per-behavior loop of `generateTestCases`: happy path, edge
cases, then error cases for each behavior in order. -/
def behaviorsLoop (p : TestGenerationParams) :
    List String → Except String (List GeneratedTest)
  | [] => .ok []
  | b :: rest =>
    match generateHappyPathTest b p with
    | .error e => .error e
    | .ok happy =>
      match generateEdgeCaseTests b p with
      | .error e => .error e
      | .ok edges =>
        match generateErrorCaseTests b p with
        | .error e => .error e
        | .ok errs =>
          match behaviorsLoop p rest with
          | .error e => .error e
          | .ok tail => .ok (happy :: (edges ++ (errs ++ tail)))

/-- `TestGeneratorService.generateTestCases`. -/
def generateTestCases (p : TestGenerationParams) : Except String (List GeneratedTest) :=
  behaviorsLoop p (parseRequirements p.requirements)

/-- `TestGeneratorService.isFrameworkSupported`. -/
def isFrameworkSupported (lang : SupportedLanguage) (framework : String) : Bool :=
  supportedFrameworks.any (fun f =>
    decide (f.language = lang) && jsToLower f.name == jsToLower framework)

/-- `TestGeneratorService.estimateCoverage`. -/
def estimateCoverage (tests : List GeneratedTest) : Nat :=
  let baselineScore := min (tests.length * 15) 80
  let bonus :=
    (if tests.any (fun t => jsIncludes t.description "happy path") then 5 else 0)
    + (if tests.any (fun t => jsIncludes t.description "edge case") then 10 else 0)
    + (if tests.any (fun t => jsIncludes t.description "error case") then 5 else 0)
  min (baselineScore + bonus) 95

/-- types/tdd.ts `GeneratedTests` with its metadata fields inlined. -/
structure GeneratedTests where
  language : SupportedLanguage
  framework : String
  testType : TestType
  tests : List GeneratedTest
  generatedAt : Int
  requirements : String
  estimatedCoverage : Nat
deriving DecidableEq, Repr

/-- `TestGeneratorService.generateTests`. -/
def generateTests (now : Int) (p : TestGenerationParams) : Except String GeneratedTests :=
  if !isFrameworkSupported p.language p.framework then
    .error ("Framework " ++ p.framework ++ " is not supported for language "
      ++ languageValue p.language)
  else
    match generateTestCases p with
    | .error e => .error e
    | .ok tests =>
      .ok { language := p.language, framework := p.framework, testType := p.testType
            tests := tests, generatedAt := now, requirements := p.requirements
            estimatedCoverage := estimateCoverage tests }

/-! ## Properties of the test generator -/

/-- For TypeScript input the language dispatch of `generateTestCode`
never throws. -/
theorem generateTestCode_ts (testName behavior testType : String)
    (p : TestGenerationParams) (sc : Option String)
    (hlang : p.language = .typescript) :
    generateTestCode testName behavior testType p sc =
      .ok (generateJavaScriptTestCode testName behavior testType p.framework
        p.language sc) := by
  simp [generateTestCode, hlang]

/-- The edge-case loop succeeds when code generation does, and
produces one test per identified edge case, described by
`Test edge case: <case>`. -/
theorem edgeLoop_ok (behavior : String) (p : TestGenerationParams)
    (hok : ∀ n b tt sc, ∃ code, generateTestCode n b tt p sc = Except.ok code) :
    ∀ l : List String, ∃ ts : List GeneratedTest, edgeLoop behavior p l = .ok ts ∧
      ts.map (fun t => t.description) = l.map (fun ec => "Test edge case: " ++ ec)
  | [] => ⟨[], rfl, rfl⟩
  | ec :: rest => by
    obtain ⟨code, hcode⟩ :=
      hok (generateTestName behavior "edge_case" (some ec)) behavior "edge_case" (some ec)
    obtain ⟨ts, hts, hdesc⟩ := edgeLoop_ok behavior p hok rest
    refine ⟨{ name := generateTestName behavior "edge_case" (some ec)
              description := "Test edge case: " ++ ec
              code := code
              imports := getRequiredImports p.language p.framework } :: ts, ?_, ?_⟩
    · simp only [edgeLoop]
      rw [hcode, hts]
    · simp [hdesc]

/-- The error-case loop succeeds when code generation does. -/
theorem errorLoop_ok (behavior : String) (p : TestGenerationParams)
    (hok : ∀ n b tt sc, ∃ code, generateTestCode n b tt p sc = Except.ok code) :
    ∀ l : List String, ∃ ts : List GeneratedTest, errorLoop behavior p l = .ok ts
  | [] => ⟨[], rfl⟩
  | ec :: rest => by
    obtain ⟨code, hcode⟩ :=
      hok (generateTestName behavior "error_case" (some ec)) behavior "error_case" (some ec)
    obtain ⟨ts, hts⟩ := errorLoop_ok behavior p hok rest
    refine ⟨{ name := generateTestName behavior "error_case" (some ec)
              description := "Test error case: " ++ ec
              code := code
              imports := getRequiredImports p.language p.framework } :: ts, ?_⟩
    simp only [errorLoop]
    rw [hcode, hts]

/-- The behavior loop succeeds when code generation does, and its
output contains an edge-case test for every edge case identified on
every extracted behavior. -/
theorem behaviorsLoop_ok (p : TestGenerationParams)
    (hok : ∀ n b tt sc, ∃ code, generateTestCode n b tt p sc = Except.ok code) :
    ∀ l : List String, ∃ ts : List GeneratedTest, behaviorsLoop p l = .ok ts ∧
      ∀ b ∈ l, ∀ ec ∈ identifyEdgeCases b,
        ("Test edge case: " ++ ec) ∈ ts.map (fun t => t.description)
  | [] => ⟨[], rfl, by simp⟩
  | b :: rest => by
    obtain ⟨codeH, hcodeH⟩ := hok (generateTestName b "happy_path" none) b "happy_path" none
    obtain ⟨edges, hedges, hdescE⟩ := edgeLoop_ok b p hok (identifyEdgeCases b)
    obtain ⟨errs, herrs⟩ := errorLoop_ok b p hok (identifyErrorCases b)
    obtain ⟨tail, htail, htailMem⟩ := behaviorsLoop_ok p hok rest
    refine ⟨{ name := generateTestName b "happy_path" none
              description := "Test the happy path for: " ++ b
              code := codeH
              imports := getRequiredImports p.language p.framework } ::
        (edges ++ (errs ++ tail)), ?_, ?_⟩
    · simp only [behaviorsLoop, generateHappyPathTest, generateEdgeCaseTests,
        generateErrorCaseTests]
      rw [hcodeH, hedges, herrs, htail]
    · intro b' hb' ec hec
      rcases List.mem_cons.mp hb' with rfl | hb'
      · have : ("Test edge case: " ++ ec) ∈ edges.map (fun t => t.description) := by
          rw [hdescE]
          exact List.mem_map_of_mem _ hec
        simp only [List.map_cons, List.map_append, List.mem_cons, List.mem_append]
        exact Or.inr (Or.inl this)
      · have := htailMem b' hb' ec hec
        simp only [List.map_cons, List.map_append, List.mem_cons, List.mem_append]
        exact Or.inr (Or.inr (Or.inr this))

/-- C5 (amended): whenever `parseRequirements` extracts a behavior
containing the keyword `number` (case-insensitively), the generated
tests include edge-case tests for `zero value`, `negative value` and
`maximum value` (stated for the supported TypeScript/jest pipeline). -/
theorem generateTests_number_edge_cases (now : Int) (p : TestGenerationParams)
    (b : String)
    (hlang : p.language = .typescript) (hfw : p.framework = "jest")
    (hb : b ∈ parseRequirements p.requirements)
    (hnum : jsIncludes (jsToLower b) "number" = true) :
    ∃ r, generateTests now p = .ok r ∧
      "Test edge case: zero value" ∈ r.tests.map (fun t => t.description) ∧
      "Test edge case: negative value" ∈ r.tests.map (fun t => t.description) ∧
      "Test edge case: maximum value" ∈ r.tests.map (fun t => t.description) := by
  have hok : ∀ n b' tt sc, ∃ code, generateTestCode n b' tt p sc = Except.ok code :=
    fun n b' tt sc => ⟨_, generateTestCode_ts n b' tt p sc hlang⟩
  obtain ⟨ts, hts, hmem⟩ := behaviorsLoop_ok p hok (parseRequirements p.requirements)
  have hsup : isFrameworkSupported p.language p.framework = true := by
    rw [hlang, hfw]
    decide
  have hzero : "zero value" ∈ identifyEdgeCases b := by
    simp [identifyEdgeCases, hnum]
  have hneg : "negative value" ∈ identifyEdgeCases b := by
    simp [identifyEdgeCases, hnum]
  have hmax : "maximum value" ∈ identifyEdgeCases b := by
    simp [identifyEdgeCases, hnum]
  refine ⟨{ language := p.language, framework := p.framework, testType := p.testType
            tests := ts, generatedAt := now, requirements := p.requirements
            estimatedCoverage := estimateCoverage ts }, ?_, ?_, ?_, ?_⟩
  · simp only [generateTests, generateTestCases, hsup, Bool.not_true, Bool.false_eq_true,
      if_false]
    rw [hts]
  · simpa using hmem b hb _ hzero
  · simpa using hmem b hb _ hneg
  · simpa using hmem b hb _ hmax

/-- A concrete requirement whose single extracted behavior mentions
numbers. -/
def calculatorParams : TestGenerationParams :=
  { requirements := "Calculator should add two numbers", language := .typescript,
    framework := "jest", testType := .unit, existingCode := none }

/-- Witness for the amended C5 at a concrete requirement. -/
theorem generateTests_number_edge_cases_witness :
    ∃ r, generateTests 0 calculatorParams = .ok r ∧
      "Test edge case: zero value" ∈ r.tests.map (fun t => t.description) ∧
      "Test edge case: negative value" ∈ r.tests.map (fun t => t.description) ∧
      "Test edge case: maximum value" ∈ r.tests.map (fun t => t.description) :=
  generateTests_number_edge_cases 0 calculatorParams
    "Calculator should add two numbers" rfl rfl (by decide) (by decide)

/-- A requirement that contains `number`, but only in a sentence
without should/must/when/given: the sentence filter of
`parseRequirements` drops it. -/
def numberMissedParams : TestGenerationParams :=
  { requirements := "It should work. The number 5 exists.", language := .typescript,
    framework := "jest", testType := .unit, existingCode := none }

/-- C5 counterexample to the claim as stated: the requirement contains
the keyword `number`, the generation succeeds, yet no
`zero value` edge-case test is produced, because the keyword sits in a
sentence that `parseRequirements` filters out. -/
theorem generateTests_number_counterexample :
    jsIncludes (jsToLower numberMissedParams.requirements) "number" = true ∧
    (match generateTests 0 numberMissedParams with
     | .ok r => decide ("Test edge case: zero value" ∉ r.tests.map (fun t => t.description))
     | .error _ => false) = true := by
  constructor
  · decide
  · decide

/-! ## Localization (src/i18n.ts) -/

/-- `SupportedLocale`. -/
inductive Locale
  | zh
  | en
deriving DecidableEq, Repr

/-- The `zh` message dictionary. -/
def zhMessages : List (String × String) :=
  [("tdd.title", "TDD开发工具"),
   ("tdd.description", "测试驱动开发的核心工作流工具"),
   ("tdd.command.generate.hint", "根据需求描述生成全面的测试用例，支持多种测试框架"),
   ("tdd.command.implement.hint", "基于测试代码生成最小化实现，遵循TDD原则"),
   ("tdd.command.test.hint", "执行项目测试并返回详细结果和错误信息"),
   ("tdd.command.coverage.hint", "分析测试覆盖率，识别未测试的代码区域"),
   ("tdd.command.refactor.hint", "提供代码重构建议，保持测试通过的前提下改进代码"),
   ("tdd.command.validate.hint", "检查是否正确遵循红绿重构的TDD循环"),
   ("feature.title", "功能管理"),
   ("feature.description", "项目功能的全生命周期管理"),
   ("tracking.title", "测试跟踪"),
   ("tracking.description", "测试方法级别的执行跟踪管理"),
   ("error.validation_failed", "字段验证失败: \x7b\x7bfield\x7d\x7d"),
   ("error.invalid_params", "输入参数验证失败"),
   ("error.tool_execution_failed", "工具执行失败")]

/-- The `en` message dictionary. -/
def enMessages : List (String × String) :=
  [("tdd.title", "TDD Development Tool"),
   ("tdd.description", "Core workflow tool for Test-Driven Development"),
   ("tdd.command.generate.hint",
    "Generate comprehensive test cases from requirements, supporting multiple testing frameworks"),
   ("tdd.command.implement.hint",
    "Generate minimal implementation from test code, following TDD principles"),
   ("tdd.command.test.hint",
    "Execute project tests and return detailed results and error information"),
   ("tdd.command.coverage.hint",
    "Analyze test coverage and identify untested code areas"),
   ("tdd.command.refactor.hint",
    "Provide code refactoring suggestions while keeping tests passing"),
   ("tdd.command.validate.hint",
    "Check if the red-green-refactor TDD cycle is being followed correctly"),
   ("feature.title", "Feature Management"),
   ("feature.description", "Full lifecycle management of project features"),
   ("tracking.title", "Test Tracking"),
   ("tracking.description", "Execution tracking management at test method level"),
   ("error.validation_failed", "Validation failed for field: \x7b\x7bfield\x7d\x7d"),
   ("error.invalid_params", "Input parameter validation failed"),
   ("error.tool_execution_failed", "Tool execution failed")]

/-- The message table of a locale. -/
def localeMessages : Locale → List (String × String)
  | .zh => zhMessages
  | .en => enMessages

/-- `messages[locale]?.[key]`. -/
def msgLookup (loc : Locale) (key : String) : Option String :=
  ((localeMessages loc).find? (fun kv => kv.1 == key)).map (fun kv => kv.2)

/-- JavaScript `a || b` over a possibly-missing string. -/
def firstNonEmptyStr : Option String → String → String
  | some s, d => if s == "" then d else s
  | none, d => d

/-- `I18nService.getMessage`: the locale's table, then the default
(`en`) table, then the key itself. -/
def getMessage (loc : Locale) (key : String) : String :=
  firstNonEmptyStr (msgLookup loc key) (firstNonEmptyStr (msgLookup .en key) key)

/-- `I18nService` error-code table. -/
def errorCodes : List (String × Int) :=
  [("INVALID_PARAMS", -31002), ("TOOL_EXECUTION_ERROR", -31001), ("RESOURCE_NOT_FOUND", -31003)]

/-- `LocalizedError` (without the optional data payload). -/
structure LocalizedError where
  code : Int
  message : String
deriving DecidableEq, Repr

/-- `I18nService.createLocalizedError`. -/
def createLocalizedError (errorType : String) (loc : Locale) : LocalizedError :=
  { code := ((errorCodes.find? (fun kv => kv.1 == errorType)).map (fun kv => kv.2)).getD 0
    message := getMessage loc ("error." ++ jsToLower errorType) }

/-! ## Tool surfaces (src/handlers/tools.ts, src/handlers/new-tools.ts,
src/server.ts)

Tool definitions are embedded by their name and description (the
`inputSchema` JSON blobs play no role in the listed counts). -/

/-- A tool definition as listed over the protocol. -/
structure ToolDef where
  name : String
  description : String
deriving DecidableEq, Repr

/-- The legacy `TOOLS` array of src/handlers/tools.ts: fifteen
individual tools. -/
def legacyTools : List ToolDef :=
  [{ name := "generate_test_cases",
     description := "Generate comprehensive test cases from requirements using TDD best practices" },
   { name := "implement_from_tests",
     description := "Generate implementation code that passes the given tests" },
   { name := "run_tests",
     description := "Execute tests and return detailed results" },
   { name := "analyze_coverage",
     description := "Analyze code coverage and generate detailed reports" },
   { name := "refactor_code",
     description := "Provide code refactoring suggestions and implementations" },
   { name := "validate_tdd_cycle",
     description := "Validate adherence to TDD red-green-refactor cycle" },
   { name := "createFeature",
     description := "Create a new feature with TDD requirements and acceptance criteria" },
   { name := "updateFeatureStatus",
     description := "Update the status and progress of a feature" },
   { name := "linkFeatureFiles",
     description := "Associate files with a feature for tracking purposes" },
   { name := "findSimilarFeatures",
     description := "Find features similar to a given description or query" },
   { name := "createTDDSession",
     description := "Start a new TDD development session for a feature" },
   { name := "updateTDDStage",
     description := "Update the current stage of a TDD session (RED/GREEN/REFACTOR)" },
   { name := "registerTestMethod",
     description := "Register a test method with the system for tracking" },
   { name := "updateTestExecutionResult",
     description := "Update the execution result of a test method" },
   { name := "updateTestMethodStatus",
     description := "Update the status of a test method" }]

/-- `NewToolsHandler.listTools`: the three simplified tools, described
through the i18n tables. -/
def newToolsList (loc : Locale) : List ToolDef :=
  [{ name := "tdd", description := getMessage loc "tdd.description" },
   { name := "feature", description := getMessage loc "feature.description" },
   { name := "tracking", description := getMessage loc "tracking.description" }]

/-- src/server.ts: `useNewTools = process.env.USE_NEW_TOOLS === "true"`. -/
def useNewToolsFlag (envValue : Option String) : Bool :=
  envValue == some "true"

/-- The `tools/list` handler selected by the environment variable. -/
def listToolsFor (envValue : Option String) (loc : Locale) : List ToolDef :=
  if useNewToolsFlag envValue then newToolsList loc else legacyTools

/-- C2: with `USE_NEW_TOOLS` unset or set to `false` the server lists
exactly 15 tool definitions; with `USE_NEW_TOOLS=true` it lists exactly
3, named `tdd`, `feature` and `tracking`. -/
theorem listTools_counts (envValue : Option String) (loc : Locale) :
    ((envValue = some "false" ∨ envValue = none) →
      (listToolsFor envValue loc).length = 15) ∧
    (envValue = some "true" →
      (listToolsFor envValue loc).length = 3 ∧
      (listToolsFor envValue loc).map (fun t => t.name) = ["tdd", "feature", "tracking"]) := by
  constructor
  · rintro (rfl | rfl) <;> rfl
  · rintro rfl
    exact ⟨rfl, rfl⟩

/-- Witness for C2 at concrete environment values. -/
theorem listTools_counts_witness :
    (listToolsFor (some "false") .zh).length = 15 ∧
    (listToolsFor none .zh).length = 15 ∧
    (listToolsFor (some "true") .en).length = 3 ∧
    (listToolsFor (some "true") .en).map (fun t => t.name) = ["tdd", "feature", "tracking"] :=
  ⟨(listTools_counts (some "false") .zh).1 (Or.inl rfl),
   (listTools_counts none .zh).1 (Or.inr rfl),
   ((listTools_counts (some "true") .en).2 rfl).1,
   ((listTools_counts (some "true") .en).2 rfl).2⟩

/-! ## The new 3-tool call handler (src/handlers/new-tools.ts) -/

/-- A `CallToolResult`: the `isError` flag (absent means `false`) and
the text contents of the envelope. -/
structure CallToolResult where
  isError : Bool
  content : List String
deriving DecidableEq, Repr

/-- `NewToolsHandler.createSuccessResult` (no `isError` flag). -/
def createSuccessResult (message : String) : CallToolResult :=
  { isError := false, content := [message] }

/-- `NewToolsHandler.createErrorResult`. -/
def createErrorResult (message : String) : CallToolResult :=
  { isError := true, content := [message] }

/-- The argument object of a `tools/call`; every field the three
handlers read, each possibly absent. -/
structure ToolArgs where
  command : Option String
  requirements : Option String
  language : Option String
  framework : Option String
  testType : Option String
  testCode : Option String
  implementationStyle : Option String
  projectPath : Option String
  sourceCode : Option String
  featureId : Option String
  developer : Option String
  name : Option String
  query : Option String
  filePath : Option String
deriving DecidableEq, Repr

/-- JavaScript truthiness of an optional string field: `undefined` and
the empty string are falsy. -/
def optTruthy : Option String → Bool
  | none => false
  | some s => !(s == "")

/-- JavaScript `o || d` on an optional string. -/
def jsOrStr (o : Option String) (d : String) : String :=
  match o with
  | some s => if s == "" then d else s
  | none => d

/-- The mutable state of a `NewToolsHandler` instance: the implicit
session id field plus the storage tree it writes through. -/
structure HandlerState where
  currentSessionId : Option String
  store : Store

/-- `NewToolsHandler.ensureActiveSession`: auto-create and persist a
session on first use.  The auto-created session always passes schema
validation (`cycleCount = 0`), so the error branch of `saveTDDSession`
is unreachable. -/
def ensureActiveSession (c : DateCodec) (now : Int) (st : HandlerState)
    (args : ToolArgs) : HandlerState :=
  match st.currentSessionId with
  | some _ => st
  | none =>
    let sessionId := "session-" ++ toString now
    let session : TDDSession :=
      { id := sessionId, featureId := jsOrStr args.featureId "auto-feature"
        projectId := "auto-project", developer := jsOrStr args.developer "unknown"
        stage := .red, startedAt := now, updatedAt := now, completedAt := none
        notes := some "Auto-created session", cycleCount := 0
        testFiles := none, implementationFiles := none }
    match saveTDDSession c st.store session with
    | .ok s2 => { currentSessionId := some sessionId, store := s2 }
    | .error _ => st

/-- `NewToolsHandler.updateSessionStage`. -/
def handlerUpdateSessionStage (c : DateCodec) (now : Int) (st : HandlerState)
    (stage : TDDStage) : HandlerState :=
  match st.currentSessionId with
  | some sid => { st with store := (updateTDDSessionStage c now st.store sid stage).2 }
  | none => st

/-- `NewToolsHandler.executeFullTDDWorkflow`. -/
def executeFullTDDWorkflow (c : DateCodec) (now : Int) (st : HandlerState)
    (_args : ToolArgs) : CallToolResult × HandlerState :=
  let results := ["✅ 生成测试用例"]
  let st := handlerUpdateSessionStage c now st .red
  let results := results ++ ["✅ 生成最小实现"]
  let st := handlerUpdateSessionStage c now st .green
  let results := results ++ ["✅ 运行测试", "✅ 分析覆盖率", "✅ 提供重构建议"]
  (createSuccessResult ("完整TDD流程执行完成:\n" ++ strIntercalate "\n" results), st)

/-- `NewToolsHandler.handleTDDTool`. -/
def handleTDDTool (c : DateCodec) (now : Int) (loc : Locale) (st : HandlerState)
    (args : ToolArgs) : CallToolResult × HandlerState :=
  let command := args.command
  let st := ensureActiveSession c now st args
  if !optTruthy command && !optTruthy args.requirements then
    (createErrorResult (createLocalizedError "INVALID_PARAMS" loc).message, st)
  else if command == some "implement" && !optTruthy args.testCode then
    (createErrorResult "testCode is required for implement command", st)
  else if !optTruthy command then
    let st := handlerUpdateSessionStage c now st .red
    let workflow := executeFullTDDWorkflow c now st args
    let st := handlerUpdateSessionStage c now workflow.2 .refactor
    (workflow.1, st)
  else
    match command with
    | some "generate" =>
      if !optTruthy args.requirements then
        (createErrorResult "requirements is required for generate command", st)
      else
        (createSuccessResult "Test cases generated successfully",
          handlerUpdateSessionStage c now st .red)
    | some "implement" =>
      (createSuccessResult "Implementation code generated successfully",
        handlerUpdateSessionStage c now st .green)
    | some "test" => (createSuccessResult "Tests executed successfully", st)
    | some "coverage" => (createSuccessResult "Coverage analysis completed", st)
    | some "refactor" =>
      (createSuccessResult "Refactoring suggestions provided",
        handlerUpdateSessionStage c now st .refactor)
    | some "validate" => (createSuccessResult "TDD cycle validation completed", st)
    | cmd => (createErrorResult ("Invalid command: " ++ optInterp cmd), st)

/-- `NewToolsHandler.handleFeatureTool`. -/
def handleFeatureTool (loc : Locale) (st : HandlerState) (args : ToolArgs) :
    CallToolResult × HandlerState :=
  if !optTruthy args.name && !optTruthy args.query then
    (createErrorResult (createLocalizedError "INVALID_PARAMS" loc).message, st)
  else
    let command := jsOrStr args.command "create"
    if command == "create" then (createSuccessResult "Feature created successfully", st)
    else if command == "update" then (createSuccessResult "Feature updated successfully", st)
    else if command == "link" then
      (createSuccessResult "Files linked to feature successfully", st)
    else if command == "find" then (createSuccessResult "Similar features found", st)
    else (createErrorResult ("Invalid command: " ++ command), st)

/-- `NewToolsHandler.handleTrackingTool`. -/
def handleTrackingTool (st : HandlerState) (args : ToolArgs) :
    CallToolResult × HandlerState :=
  let command := jsOrStr args.command "register"
  if command == "register" then
    if !optTruthy args.featureId || !optTruthy args.name || !optTruthy args.filePath
        || !optTruthy args.framework then
      (createErrorResult "featureId, name, filePath, and framework are required", st)
    else (createSuccessResult "Test method registered successfully", st)
  else if command == "result" then (createSuccessResult "Test execution result updated", st)
  else if command == "status" then (createSuccessResult "Test method status updated", st)
  else (createErrorResult ("Invalid command: " ++ command), st)

/-- `NewToolsHandler.callTool`: dispatch by tool name. -/
def callTool (c : DateCodec) (now : Int) (loc : Locale) (st : HandlerState)
    (toolName : String) (args : ToolArgs) : CallToolResult × HandlerState :=
  if toolName == "tdd" then handleTDDTool c now loc st args
  else if toolName == "feature" then handleFeatureTool loc st args
  else if toolName == "tracking" then handleTrackingTool st args
  else (createErrorResult ("Unknown tool: " ++ toolName), st)

/-- Remainder of `s` after the first occurrence of `nee`, if any. -/
def afterMatch : List Char → List Char → Option (List Char)
  | [], nee => if nee.isEmpty then some [] else none
  | c :: t, nee =>
    if nee.isPrefixOf (c :: t) then some ((c :: t).drop nee.length)
    else afterMatch t nee

/-- `a` occurs in `s`, and `b` occurs at or after the end of that first
occurrence of `a`. -/
def containsInOrder (s a b : String) : Bool :=
  match afterMatch s.data a.data with
  | some rest => listContains rest b.data
  | none => false

/-- The success text of the full TDD workflow. -/
def fullWorkflowText : String :=
  "完整TDD流程执行完成:\n" ++ strIntercalate "\n"
    ["✅ 生成测试用例", "✅ 生成最小实现", "✅ 运行测试", "✅ 分析覆盖率", "✅ 提供重构建议"]

/-- C1 (amended): a `tools/call` of `tdd` with no `command` and a
non-empty `requirements` string returns a non-error result whose text
contains `生成测试用例` and, later, `生成最小实现`. -/
theorem tdd_default_workflow_success (c : DateCodec) (now : Int) (loc : Locale)
    (st : HandlerState) (args : ToolArgs) (r : String)
    (hcmd : args.command = none) (hreq : args.requirements = some r) (hr : r ≠ "") :
    (callTool c now loc st "tdd" args).1.isError = false ∧
    (callTool c now loc st "tdd" args).1.content.any
      (fun t => containsInOrder t "生成测试用例" "生成最小实现") = true := by
  have hne : (r == "") = false := by
    simp [hr]
  have hres : (callTool c now loc st "tdd" args).1 = createSuccessResult fullWorkflowText := by
    simp [callTool, handleTDDTool, executeFullTDDWorkflow, hcmd, hreq, optTruthy, hne,
      fullWorkflowText]
  rw [hres]
  exact ⟨rfl, by decide⟩

/-- The argument object `{requirements: "x"}`. -/
def onlyRequirementsArgs : ToolArgs :=
  { command := none, requirements := some "x", language := none, framework := none,
    testType := none, testCode := none, implementationStyle := none, projectPath := none,
    sourceCode := none, featureId := none, developer := none, name := none, query := none,
    filePath := none }

/-- The handler state of a fresh `NewToolsHandler`. -/
def initialHandlerState : HandlerState :=
  { currentSessionId := none, store := emptyStore }

/-- Witness for the amended C1 at `{requirements: "x"}`. -/
theorem tdd_default_workflow_success_witness :
    (callTool trivialCodec 0 .zh initialHandlerState "tdd" onlyRequirementsArgs).1.isError
        = false ∧
    (callTool trivialCodec 0 .zh initialHandlerState "tdd"
        onlyRequirementsArgs).1.content.any
      (fun t => containsInOrder t "生成测试用例" "生成最小实现") = true :=
  tdd_default_workflow_success trivialCodec 0 .zh initialHandlerState
    onlyRequirementsArgs "x" rfl rfl (by decide)

/-- The argument object `{requirements: ""}`: it does contain a
requirements string, and no command. -/
def emptyRequirementsArgs : ToolArgs :=
  { command := none, requirements := some "", language := none, framework := none,
    testType := none, testCode := none, implementationStyle := none, projectPath := none,
    sourceCode := none, featureId := none, developer := none, name := none, query := none,
    filePath := none }

/-- C1 counterexample to the claim as stated: with the requirements
string `""` (and no command) the handler takes the JavaScript-falsy
`!args.requirements` branch and returns an `isError` result. -/
theorem tdd_empty_requirements_counterexample :
    (callTool trivialCodec 0 .zh initialHandlerState "tdd"
      emptyRequirementsArgs).1.isError = true := by
  decide

end TddMcp
